import Mathlib

/-!
Verification development for the Bowliverse v13 biomechanics pipeline.

The Python source is shallowly embedded over exact rational arithmetic
(`ℚ` in place of IEEE floats, with every numeric literal of the source kept
exactly, including the `1e-9`-style epsilons).  Python list indices are `ℕ`;
`max(0, n - k)` on ints coincides with truncated `ℕ` subtraction.

The only parts of the source that are not translated term-by-term are the
transcendental geometry kernels (`arccos`, `atan2`, `exp`-kernel smoothing,
vector norms).  Those functions are not computable over `ℚ`, so each one is
carried as an explicit function parameter (an "angle oracle") of the
definitions that use it; everything downstream of the oracles — convolution
smoothing, argmax/argmin extraction, medians, gradients, window slicing,
fallbacks, ordering corrections, signal-quality gates, thresholds,
level grading, list assembly and aggregation — is embedded exactly from the
source.  Universal theorems quantify over all oracles (hence hold in
particular for the real trigonometric functions); concrete evaluations
instantiate an oracle with values that the real geometry attains on the
landmarks used (for instance perpendicular arm vectors give a cosine of
exactly `0`, hence an angle of exactly `90` degrees).
-/

namespace Bowliverse

/-- A single MediaPipe landmark entry `{"x":…,"y":…,"z":…,"vis":…}`. -/
structure Joint where
  x : ℚ
  y : ℚ
  z : ℚ
  vis : ℚ
deriving DecidableEq

instance : Inhabited Joint := ⟨⟨0, 0, 0, 0⟩⟩

/-- A `PoseFrame` as produced by the pose stage (`app/models/pose_model.py`):
an optional list of 33 landmark dicts plus a per-frame confidence. -/
structure PoseFrame where
  landmarks : Option (List Joint)
  confidence : ℚ
deriving DecidableEq

instance : Inhabited PoseFrame := ⟨⟨none, 0⟩⟩

/-- Actor handedness, the `hand` input string after `.upper()` in
`LandmarkMapper.__init__` (`app/utils/landmarks.py`): the primary side is
`right` exactly when the string is `"R"`. -/
inductive Hand where
  | left
  | right
deriving DecidableEq

/-- The semantic joint names of `LandmarkMapper.left/right`. -/
inductive JointName where
  | shoulder
  | elbow
  | wrist
  | hip
  | knee
  | ankle
  | heel
  | toe
deriving DecidableEq

/-- The `mapper.primary` landmark slot for a semantic joint name
(`app/utils/landmarks.py`: right side 12/14/16/24/26/28/30/32, left side
11/13/15/23/25/27/29/31). -/
def primaryIdx : Hand → JointName → ℕ
  | .right, .shoulder => 12
  | .right, .elbow => 14
  | .right, .wrist => 16
  | .right, .hip => 24
  | .right, .knee => 26
  | .right, .ankle => 28
  | .right, .heel => 30
  | .right, .toe => 32
  | .left, .shoulder => 11
  | .left, .elbow => 13
  | .left, .wrist => 15
  | .left, .hip => 23
  | .left, .knee => 25
  | .left, .ankle => 27
  | .left, .heel => 29
  | .left, .toe => 31

/-- Landmark list access `lm[idx]`; source landmark lists always have the 33
MediaPipe entries, so the default is never consulted on well-formed input. -/
def getJ (lm : List Joint) (i : ℕ) : Joint :=
  lm.getD i default

/-- Clamp to `[0, 1]`, the `max(0.0, min(1.0, _))` idiom of the source. -/
def clamp01 (q : ℚ) : ℚ := max 0 (min 1 q)

/-- Minimum of a list, Python's `min` / `np.min`; call sites guarantee the
list is nonempty (Python raises on an empty one). -/
def minList : List ℚ → ℚ
  | [] => 0
  | x :: xs => xs.foldl min x

/-- Maximum of a list, Python's `max` / `np.max`; call sites guarantee the
list is nonempty. -/
def maxList : List ℚ → ℚ
  | [] => 0
  | x :: xs => xs.foldl max x

/-- Tail of `np.argmax`: scan remaining values, replacing the best index only
on a strict improvement, so the first occurrence of the maximum wins. -/
def argmaxAux : List ℚ → ℕ → ℕ → ℚ → ℕ
  | [], _, bi, _ => bi
  | v :: vs, i, bi, bv =>
    if bv < v then argmaxAux vs (i + 1) i v else argmaxAux vs (i + 1) bi bv

/-- Index of the first maximum, `int(np.argmax(vals))`. -/
def argmaxIdx : List ℚ → ℕ
  | [] => 0
  | v :: vs => argmaxAux vs 1 0 v

/-- Tail of `np.argmin`: first occurrence of the minimum wins. -/
def argminAux : List ℚ → ℕ → ℕ → ℚ → ℕ
  | [], _, bi, _ => bi
  | v :: vs, i, bi, bv =>
    if v < bv then argminAux vs (i + 1) i v else argminAux vs (i + 1) bi bv

/-- Index of the first minimum, `int(np.argmin(vals))`. -/
def argminIdx : List ℚ → ℕ
  | [] => 0
  | v :: vs => argminAux vs 1 0 v

/-- Insertion step of a stable ascending sort (used to model the sort inside
`np.median`). -/
def insertSorted (a : ℕ) : List ℕ → List ℕ
  | [] => [a]
  | b :: bs => if a ≤ b then a :: b :: bs else b :: insertSorted a bs

/-- Stable ascending sort of a list of naturals. -/
def sortNat (l : List ℕ) : List ℕ := l.foldr insertSorted []

/-- Python's `int(np.median(xs))` for a list of nonnegative ints: sort, take
the middle element (odd length) or the truncated mean of the two middle
elements (even length; `int` truncates toward zero, which on nonnegative
values is floor, i.e. `ℕ` division by 2). -/
def medianInt (l : List ℕ) : ℕ :=
  let s := sortNat l
  if s.length % 2 = 1 then s.getD (s.length / 2) 0
  else (s.getD (s.length / 2 - 1) 0 + s.getD (s.length / 2) 0) / 2

/-- The events-stage `_smooth`: below 3 samples return a copy, otherwise
`np.convolve(vals, [0.25, 0.5, 0.25], mode="same")`, i.e. a centred
3-tap kernel with zero padding at both ends. -/
def smooth3 (v : List ℚ) : List ℚ :=
  if v.length < 3 then v
  else
    (List.range v.length).map fun i =>
      (1 / 4) * (if i = 0 then 0 else v.getD (i - 1) 0)
        + (1 / 2) * v.getD i 0 + (1 / 4) * v.getD (i + 1) 0

/-- `np.gradient` with unit spacing: one-sided differences at the ends,
central differences inside.  `np.gradient` raises on fewer than 2 samples;
call sites guarantee at least 2, and the model returns `[]` there. -/
def npGradient (v : List ℚ) : List ℚ :=
  if v.length < 2 then []
  else
    (List.range v.length).map fun i =>
      if i = 0 then v.getD 1 0 - v.getD 0 0
      else if i = v.length - 1 then v.getD i 0 - v.getD (i - 1) 0
      else (v.getD (i + 1) 0 - v.getD (i - 1) 0) / 2

/-- `np.gradient(xs, dt)` with a scalar spacing `dt`: the unit-spacing
gradient divided by `dt`. -/
def npGradientDt (v : List ℚ) (dt : ℚ) : List ℚ :=
  (npGradient v).map (· / dt)

section EventsStage

variable (armAng : List Joint → ℚ)

/-!
The events stage (`app/pipeline/events_stage.py`).  `armAng lm` is the
oracle for the per-frame external elbow angle in degrees that the source
computes as
`degrees(arccos(clip(dot(S-E, W-E) / (norm(S-E)*norm(W-E) + 1e-9), -1, 1)))`
from the primary shoulder/elbow/wrist points of the landmark list; both
`detect_release` and `_flexion_list` use exactly this quantity (the latter
as `180 - external`).
-/

/-- An `EventFrame` (`app/models/events_model.py`, reconstructed from its
uses: `EventFrame(frame=…, conf=…)`). -/
structure EventFrame where
  frame : ℕ
  conf : ℚ
deriving DecidableEq

/-- The `_is_valid_frame` visibility filter: landmarks present and primary
shoulder/elbow/wrist visibilities all at least `min_vis = 0.15`. -/
def isValidFrame (hand : Hand) (pf : PoseFrame) : Bool :=
  match pf.landmarks with
  | none => false
  | some lm =>
    decide ((15 : ℚ) / 100 ≤ (getJ lm (primaryIdx hand .shoulder)).vis)
      && decide ((15 : ℚ) / 100 ≤ (getJ lm (primaryIdx hand .elbow)).vis)
      && decide ((15 : ℚ) / 100 ≤ (getJ lm (primaryIdx hand .wrist)).vis)

/-- Per-frame external elbow angle with the source's `None → 0.0` cleaning
(frames without landmarks contribute `0.0` to the curve). -/
def extOr0 (pf : PoseFrame) : ℚ :=
  match pf.landmarks with
  | none => 0
  | some lm => armAng lm

/-- The smoothed external-elbow-angle curve of `detect_release`. -/
def releaseCurve (frames : List PoseFrame) : List ℚ :=
  smooth3 (frames.map (extOr0 armAng))

/-- Per-frame internal flexion `180 - external` with `None → 0.0` cleaning
(`_flexion_list`). -/
def flexOr0 (pf : PoseFrame) : ℚ :=
  match pf.landmarks with
  | none => 0
  | some lm => 180 - armAng lm

/-- The smoothed flexion curve of `_flexion_list`. -/
def flexionCurve (frames : List PoseFrame) : List ℚ :=
  smooth3 (frames.map (flexOr0 armAng))

/-- Per-frame humerus elevation `shoulder.y - elbow.y` with `None → 0.0`
cleaning (`_elevation_list`). -/
def elevOr0 (hand : Hand) (pf : PoseFrame) : ℚ :=
  match pf.landmarks with
  | none => 0
  | some lm =>
    (getJ lm (primaryIdx hand .shoulder)).y - (getJ lm (primaryIdx hand .elbow)).y

/-- The smoothed elevation curve of `_elevation_list`. -/
def elevationCurve (hand : Hand) (frames : List PoseFrame) : List ℚ :=
  smooth3 (frames.map (elevOr0 hand))

/-- The stateful loop of `_rotation_list`: frames without landmarks emit
`0.0` and leave `prev` unchanged; the first frame with landmarks emits `0.0`;
later ones emit the difference of `shoulder.x - hip.x` with the previous
such value. -/
def rotationVals (hand : Hand) : List PoseFrame → Option ℚ → List ℚ
  | [], _ => []
  | pf :: rest, prev =>
    match pf.landmarks with
    | none => 0 :: rotationVals hand rest prev
    | some lm =>
      let cur := (getJ lm (primaryIdx hand .shoulder)).x - (getJ lm (primaryIdx hand .hip)).x
      (match prev with
        | none => 0
        | some p => cur - p) :: rotationVals hand rest (some cur)

/-- The smoothed shoulder-rotation-velocity curve of `_rotation_list`. -/
def rotationCurve (hand : Hand) (frames : List PoseFrame) : List ℚ :=
  smooth3 (rotationVals hand frames none)

/-- The `float(max(0.0, min(1.0, pose_frames[idx].confidence))) * 100.0`
confidence used for every detected anchor. -/
def frameConf (frames : List PoseFrame) (i : ℕ) : ℚ :=
  clamp01 (frames.getD i default).confidence * 100

/-- `detect_release`: index of the first maximum of the smoothed external
elbow curve, with the frame-confidence scaling. -/
def detectRelease (frames : List PoseFrame) : EventFrame :=
  let idx := argmaxIdx (releaseCurve armAng frames)
  ⟨idx, frameConf frames idx⟩

/-- The `flex_idx` of `detect_uah_c2`: `int(np.argmin(flex[:rel_idx]))`. -/
def flexMinIdx (frames : List PoseFrame) (relIdx : ℕ) : ℕ :=
  argminIdx ((flexionCurve armAng frames).take relIdx)

/-- The candidate indices `[i for i, v in enumerate(np.gradient(curve)) if
v > 0.01]` of `detect_uah_c2` for one of the two velocity signals. -/
def posVelCands (curve : List ℚ) : List ℕ :=
  (List.range (npGradient curve).length).filter fun i =>
    decide ((1 : ℚ) / 100 < (npGradient curve).getD i 0)

/-- The candidate combination of `detect_uah_c2` for one velocity signal:
`int(np.median(candidates))` if any, else the flexion-minimum index. -/
def signalOnsetIdx (curve : List ℚ) (flexIdx : ℕ) : ℕ :=
  if (posVelCands curve).isEmpty then flexIdx else medianInt (posVelCands curve)

/-- The frame index chosen by `detect_uah_c2` (for `rel_idx > 2`): the median
of the flexion/elevation/rotation candidates, clamped to `flex_idx ± 8`
(`np.clip` with a possibly negative lower bound; on `ℕ`, truncated
subtraction realises exactly the same clamp because the raw index is
nonnegative). -/
def uahIndex (hand : Hand) (frames : List PoseFrame) (relIdx : ℕ) : ℕ :=
  let flexIdx := flexMinIdx armAng frames relIdx
  let elevIdx := signalOnsetIdx ((elevationCurve hand frames).take relIdx) flexIdx
  let rotIdx := signalOnsetIdx ((rotationCurve hand frames).take relIdx) flexIdx
  min (max (medianInt [flexIdx, elevIdx, rotIdx]) (flexIdx - 8)) (flexIdx + 8)

/-- `detect_uah_c2`: `None` for `rel_idx <= 2`; otherwise the combined,
clamped index with the frame-confidence scaling. -/
def detectUah (hand : Hand) (frames : List PoseFrame) (relIdx : ℕ) : Option EventFrame :=
  if relIdx ≤ 2 then none
  else some ⟨uahIndex armAng hand frames relIdx,
    frameConf frames (uahIndex armAng hand frames relIdx)⟩

/-- The `Ys` list of `detect_ffc` / `detect_bfc`: primary-ankle `y` per frame
over `range(bound)`, with `1.0` for frames without landmarks. -/
def ankleYs (hand : Hand) (frames : List PoseFrame) (bound : ℕ) : List ℚ :=
  (List.range bound).map fun i =>
    match (frames.getD i default).landmarks with
    | none => 1
    | some lm => (getJ lm (primaryIdx hand .ankle)).y

/-- `detect_ffc`: first minimum of the smoothed ankle curve before Release.
For `rel_idx = 0` the source raises (`np.argmin` of an empty array), which
the stage's outer `except` turns into an error result; the model returns
`none` there and `runEvents` maps it to the error case. -/
def detectFfc (hand : Hand) (frames : List PoseFrame) (relIdx : ℕ) : Option EventFrame :=
  if relIdx = 0 then none
  else
    let idx := argminIdx (smooth3 (ankleYs hand frames relIdx))
    some ⟨idx, frameConf frames idx⟩

/-- `detect_bfc`: `None` for `ffc_idx <= 1`, otherwise the first minimum of
the smoothed ankle curve before FFC. -/
def detectBfc (hand : Hand) (frames : List PoseFrame) (ffcIdx : ℕ) : Option EventFrame :=
  if ffcIdx ≤ 1 then none
  else
    let idx := argminIdx (smooth3 (ankleYs hand frames ffcIdx))
    some ⟨idx, frameConf frames idx⟩

/-- The working list of the events stage: the visibility-filtered frames if
at least 5 survive, otherwise the original list. -/
def workingFrames (hand : Hand) (frames : List PoseFrame) : List PoseFrame :=
  let filtered := frames.filter (isValidFrame hand)
  if 5 ≤ filtered.length then filtered else frames

/-- Result of the events stage: either `ctx.events.error` set, or the four
anchors assigned. -/
inductive EventsResult where
  | error (msg : String)
  | ok (bfc ffc uah rel : EventFrame)
deriving DecidableEq

/-- The Release anchor the stage computes on the working list. -/
def relOf (hand : Hand) (poseFrames : List PoseFrame) : EventFrame :=
  detectRelease armAng (workingFrames hand poseFrames)

/-- The UAH anchor after the stage's fallback
(`EventFrame(frame=max(0, release.frame - 5), conf=10.0)` when
`detect_uah_c2` returns `None`) and the ordering correction
(`if uah.frame > release.frame: uah.frame = max(0, release.frame - 3)`,
which keeps the confidence). -/
def uahOf (hand : Hand) (poseFrames : List PoseFrame) : EventFrame :=
  let rel := relOf armAng hand poseFrames
  let uah0 := (detectUah armAng hand (workingFrames hand poseFrames) rel.frame).getD
    ⟨rel.frame - 5, 10⟩
  if rel.frame < uah0.frame then ⟨rel.frame - 3, uah0.conf⟩ else uah0

/-- The events-stage `run` (`app/pipeline/events_stage.py`): guard on fewer
than 5 frames, visibility filter, Release by global argmax, UAH with
fallback and ordering correction, FFC (whose `None` fallback in `run` is
dead code in the source: `detect_ffc` has no `None` path and its only
failure mode is the `rel = 0` empty-`argmin` exception, caught by the
stage's outer `except` and recorded as `ctx.events.error`), and BFC with
the `max(0, ffc.frame - 5)` fallback at confidence `10.0`. -/
def runEvents (hand : Hand) (poseFrames : List PoseFrame) : EventsResult :=
  if poseFrames.length < 5 then .error "Insufficient pose frames"
  else
    match detectFfc hand (workingFrames hand poseFrames) (relOf armAng hand poseFrames).frame with
    | none => .error "attempt to get argmin of an empty sequence"
    | some ffc =>
      .ok ((detectBfc hand (workingFrames hand poseFrames) ffc.frame).getD ⟨ffc.frame - 5, 10⟩)
        ffc (uahOf armAng hand poseFrames) (relOf armAng hand poseFrames)

end EventsStage

/-! Risk engine (`app/risk/…` and the risk section of
`app/pipeline/biomech_stage.py`). -/

/-- Risk levels occurring in calculator results. -/
inductive RiskLevel where
  | low
  | medium
  | high
  | skipped
  | unknown
deriving DecidableEq

/-- The `RISK_ID` constants of the four calculators. -/
inductive RiskId where
  | FRONT_FOOT_BRAKING
  | HIP_SHOULDER_MISMATCH
  | LATERAL_TRUNK_LEAN
  | FRONT_KNEE_COLLAPSE
deriving DecidableEq

/-- The fields of a calculator result dict that any downstream logic reads:
`risk_id`, `level`, and `guardrails_applied` (absent keys are the empty
list).  The narrative, window, evidence and confidence fields of the dicts
are never consumed by the modelled logic. -/
structure RawRisk where
  id : RiskId
  level : RiskLevel
  guardrails : List String
deriving DecidableEq

/-- `signal_quality(values)` (`app/risk/signal_quality.py`) at its default
arguments `min_len = 6`, `jitter_tol = 0.15` (every call site uses the
defaults): `0.0` for fewer than 6 samples, `0.4` when the mean absolute
step exceeds the tolerance, else `1.0`. -/
def signalQuality (values : List ℚ) : ℚ :=
  if values.length < 6 then 0
  else
    let diffs := (List.range (values.length - 1)).map fun i =>
      |values.getD (i + 1) 0 - values.getD i 0|
    if 3 / 20 < diffs.sum / ((diffs.length : ℚ) + 1 / 10 ^ 9) then 2 / 5 else 1

/-- Overall severity values returned by `aggregate_risks`. -/
inductive Overall where
  | low
  | medium
  | high
deriving DecidableEq

/-- The loop of `aggregate_risks`: return `High` at the first `HIGH` level,
remember `Medium`, keep the accumulator otherwise. -/
def aggAux : List RiskLevel → Overall → Overall
  | [], acc => acc
  | l :: ls, acc =>
    if l = .high then .high
    else if l = .medium then aggAux ls .medium
    else aggAux ls acc

/-- `aggregate_risks(formatted)` (`app/risk/aggregator.py`) on the levels of
the formatted entries.  Every dict produced by `format_risk` carries a
`level` key, so the malformed-entry `continue` is dead for stage-produced
lists. -/
def aggregateRisks (ls : List RiskLevel) : Overall := aggAux ls .low

/-- `format_risk` (`app/risk/formatter.py`) restricted to the modelled
fields: every branch copies `risk_id` into `id` and the level verbatim (the
`SKIPPED` branch emits `"SKIPPED"`, the per-id branches emit `"LOW"` or the
incoming level), and every branch copies `guardrails_applied` through; the
formatter only adds narrative and envelope fields on top.  On the modelled
fields it is therefore the identity. -/
def formatRisk (r : RawRisk) : RawRisk := r

/-- The `supporting` check of `biomech_stage.run` (lines 230-234): whether
front-foot braking or hip-shoulder mismatch reported `MEDIUM`/`HIGH`. -/
def ltlSupporting (ffb hsm : Option RawRisk) : Bool :=
  (match ffb with
    | some r => decide (r.level = .medium ∨ r.level = .high)
    | none => false) ||
  (match hsm with
    | some r => decide (r.level = .medium ∨ r.level = .high)
    | none => false)

/-- The list contribution of one optional calculator result: the `if r:
formatted.append(format_risk(r))` pattern of `biomech_stage.run` (a returned
dict is always truthy; `None` or an exception contributes nothing). -/
def optPart : Option RawRisk → List RawRisk
  | some r => [formatRisk r]
  | none => []

/-- The list contribution of the lateral-trunk-lean result
(`biomech_stage.run` lines 229-241): formatted as-is when FFB or HSM
supports it, otherwise `dict(ltl)` with the level overwritten to `LOW`. -/
def ltlPart (ffb hsm ltl : Option RawRisk) : List RawRisk :=
  match ltl with
  | some l =>
    if ltlSupporting ffb hsm then [formatRisk l]
    else [formatRisk ⟨l.id, .low, l.guardrails⟩]
  | none => []

/-- The `formatted` list assembled by `biomech_stage.run` (lines 175-263)
from the four calculator results, in source order FFB, HSM, LTL, FNC. -/
def buildFormatted (ffb hsm ltl fnc : Option RawRisk) : List RawRisk :=
  optPart ffb ++ optPart hsm ++ ltlPart ffb hsm ltl ++ optPart fnc

/-- The `ctx.biomech.risk` dict (`biomech_stage.run` lines 268-271). -/
structure RiskSummary where
  overall : Overall
  breakdown : List RawRisk
deriving DecidableEq

/-- `ctx.biomech.risk = {"overall": aggregate_risks(formatted),
"breakdown": formatted}`. -/
def mkRiskSummary (formatted : List RawRisk) : RiskSummary :=
  ⟨aggregateRisks (formatted.map RawRisk.level), formatted⟩

/-- `mapper.hip_center(lm)[0]`: the x coordinate of the mean of the left and
right hip points (landmarks 23 and 24). -/
def hipCenterX (lm : List Joint) : ℚ := ((getJ lm 23).x + (getJ lm 24).x) / 2

/-- The `xs` list of `FrontFootBrakingRisk.compute`: hip-centre x over
`range(ffc, end)` with `end = min(len(pose_frames) - 1, release + 15)`,
skipping frames without landmarks. -/
def ffbXs (frames : List PoseFrame) (ffc release : ℕ) : List ℚ :=
  (List.range' ffc (min (frames.length - 1) (release + 15) - ffc)).filterMap fun f =>
    ((frames.getD f default).landmarks).map hipCenterX

/-- `FrontFootBrakingRisk.compute` (`app/risk/front_foot_braking.py`):
`None` when fewer than 3 usable samples or when the signal-quality gate
fails — no finding at all — otherwise the early/late-deceleration braking
index `effective = early * (1 - late/(early+late+1e-6))` graded `LOW`
below 2.5, `MEDIUM` below 5.5, else `HIGH`.  The unused style-intensity
argument and the purely informational window/evidence fields are not
modelled. -/
def ffbCompute (frames : List PoseFrame) (ffc release : ℕ) (fps : ℚ) : Option RawRisk :=
  let xs := ffbXs frames ffc release
  if xs.length < 3 then none
  else
    if signalQuality xs < 1 / 2 then none
    else
      let v := npGradientDt xs (1 / fps)
      let early := max 0 (v.getD 0 0 - minList (v.take (v.length / 2)))
      let late := max 0 (v.getD (v.length / 2) 0 - minList v)
      let effective := early * (1 - late / (early + late + 1 / 10 ^ 6))
      let level : RiskLevel :=
        if effective < 5 / 2 then .low
        else if effective < 11 / 2 then .medium
        else .high
      some ⟨.FRONT_FOOT_BRAKING, level,
        ["signal_quality_ok", "min_window_ok", "release_anchored"]⟩

/-- The valid `(frame, angle)` samples of `FrontKneeCollapseRisk.compute`:
frames `range(ffc, min(len(pose_frames), release + 20))` that have
landmarks, paired with the hip-knee-ankle angle.  `kneeAng lm` is the
oracle for `degrees(arccos(clip(dot(hip-knee, ankle-knee) /
(norm(hip-knee) * norm(ankle-knee) + 1e-9), -1, 1)))` on the primary-side
joints of the landmark list. -/
def fncSamples (kneeAng : List Joint → ℚ) (frames : List PoseFrame) (ffc release : ℕ) :
    List (ℕ × ℚ) :=
  (List.range' ffc (min frames.length (release + 20) - ffc)).filterMap fun f =>
    ((frames.getD f default).landmarks).map fun lm => (f, kneeAng lm)

/-- Python's `values.index(a)`: index of the first occurrence of `a`. -/
def pyIndexOf (l : List ℚ) (a : ℚ) : ℕ := l.findIdx fun b => decide (b = a)

/-- Tail of Python's `min(iterable, key=k)`: later elements replace the
current best only on a strictly smaller key, so the first element attaining
the minimal key wins. -/
def pyMinByKeyAux (key : ℚ → ℤ) : List ℚ → ℚ → ℤ → ℚ
  | [], best, _ => best
  | y :: ys, best, bk =>
    if key y < bk then pyMinByKeyAux key ys y (key y)
    else pyMinByKeyAux key ys best bk

/-- Python's `min(l, key=key)` for a nonempty list (Python raises on an
empty one; the call site guarantees at least 5 elements). -/
def pyMinByKey (key : ℚ → ℤ) : List ℚ → ℚ
  | [] => 0
  | x :: xs => pyMinByKeyAux key xs x (key x)

/-- The `angle_rel` of `FrontKneeCollapseRisk.compute`:
`min(values, key=lambda a: abs(frames[values.index(a)] - release))` — the
value whose distance to Release, measured at the first occurrence of that
value, is minimal. -/
def fncAngleRel (values : List ℚ) (frameIdxs : List ℕ) (release : ℕ) : ℚ :=
  pyMinByKey (fun a => |(frameIdxs.getD (pyIndexOf values a) 0 : ℤ) - (release : ℤ)|) values

/-- The level grading of `FrontKneeCollapseRisk.compute`: braced
(`angle_rel >= BRACE_ANGLE = 100`) is `LOW` regardless of `delta`;
otherwise `HIGH` from `delta >= 45`, `MEDIUM` from `delta >= 25`, else
`LOW`. -/
def fncGrade (angleRel delta : ℚ) : RiskLevel :=
  if 100 ≤ angleRel then .low
  else if 45 ≤ delta then .high
  else if 25 ≤ delta then .medium
  else .low

/-- `FrontKneeCollapseRisk.compute` (`app/risk/front_knee_collapse.py`):
explicit `SKIPPED` findings with guardrail tags on the three gates
(invalid event window, fewer than 5 valid samples, low signal quality),
otherwise the graded finding with `angle_ffc` the first valid sample,
`angle_rel` located by first-occurrence value lookup, and
`min_post` the minimum of the values from that occurrence onward. -/
def fncCompute (kneeAng : List Joint → ℚ) (frames : List PoseFrame) (ffc release : ℕ) :
    Option RawRisk :=
  if release ≤ ffc then some ⟨.FRONT_KNEE_COLLAPSE, .skipped, ["invalid_event_window"]⟩
  else
    let samples := fncSamples kneeAng frames ffc release
    if samples.length < 5 then some ⟨.FRONT_KNEE_COLLAPSE, .skipped, ["signal_quality_low"]⟩
    else
      let values := samples.map Prod.snd
      if signalQuality values < 1 / 2 then
        some ⟨.FRONT_KNEE_COLLAPSE, .skipped, ["signal_quality_low"]⟩
      else
        let angleRel := fncAngleRel values (samples.map Prod.fst) release
        let minPost := minList (values.drop (pyIndexOf values angleRel))
        some ⟨.FRONT_KNEE_COLLAPSE, fncGrade angleRel (values.getD 0 0 - minPost),
          ["release_anchored", "brace_checked_by_release", "follow_through_allowed"]⟩

/-- `np.diff`: adjacent differences. -/
def diffList (v : List ℚ) : List ℚ :=
  (List.range (v.length - 1)).map fun i => v.getD (i + 1) 0 - v.getD i 0

/-- The FFC→UAH window of landmark sets that `LateralTrunkLeanRisk.compute`
walks (frames `range(ffc, uah + 1)`). -/
def ltlWindow (frames : List PoseFrame) (ffc uah : ℕ) : List (Option (List Joint)) :=
  (List.range' ffc (uah + 1 - ffc)).map fun f => (frames.getD f default).landmarks

/-- `LateralTrunkLeanRisk.compute` (`app/risk/lateral_trunk_lean.py`).
`trunkTheta lm` is the oracle for `atan2(shoulder.x - hip_center.x,
shoulder.y - hip_center.y)` on the primary shoulder; `gsmoothUnwrap` is the
oracle for `gaussian_smooth(np.unwrap(float32(theta)), sigma=1.0)` — both
transcendental.  The gates, the double differencing, the peak-jerk and the
spin/pace threshold interpolation `_lerp(spin, pace, I)` are embedded
exactly.  `None` — no finding — is returned when the window is shorter
than 3 (`uah - ffc < 3` on Python ints, hence computed in `ℤ`), when any
frame of the window lacks landmarks, or (dead given the first gate) when
fewer than 4 angles survive or the jerk list is empty. -/
def ltlCompute (trunkTheta : List Joint → ℚ) (gsmoothUnwrap : List ℚ → List ℚ)
    (frames : List PoseFrame) (ffc uah : ℕ) (I : ℚ) : Option RawRisk :=
  if (uah : ℤ) - (ffc : ℤ) < 3 then none
  else
    if (ltlWindow frames ffc uah).any Option.isNone then none
    else
      let theta := (ltlWindow frames ffc uah).filterMap (Option.map trunkTheta)
      if theta.length < 4 then none
      else
        let jerk := diffList (diffList (gsmoothUnwrap theta))
        if jerk.isEmpty then none
        else
          let peakJerk := maxList (jerk.map abs)
          let tLow := 2 / 1000 + I * (6 / 1000 - 2 / 1000)
          let tHigh := 4 / 1000 + I * (10 / 1000 - 4 / 1000)
          let level : RiskLevel :=
            if peakJerk < tLow then .low
            else if peakJerk < tHigh then .medium
            else .high
          some ⟨.LATERAL_TRUNK_LEAN, level, []⟩

/-- One step of the loop of `compute_pair_angle_series`
(`app/utils/angles.py`): frames without landmarks repeat the previous angle
(`angles[-1] if angles else 0.0`); otherwise append the planar angle of the
pair vector `B - A`, carried by the oracle `pairAngle dx dy` standing for
`float(np.degrees(np.arctan2(dy, dx)))`. -/
def pairSeriesStep (pairAngle : ℚ → ℚ → ℚ) (li ri : ℕ) (acc : List ℚ)
    (olm : Option (List Joint)) : List ℚ :=
  match olm with
  | none => acc ++ [acc.getLastD 0]
  | some lm =>
    acc ++ [pairAngle ((getJ lm ri).x - (getJ lm li).x) ((getJ lm ri).y - (getJ lm li).y)]

/-- `compute_pair_angle_series(pose_frames, mapper, start_f, end_f,
pair_fn)`: the per-frame planar pair angle over `[start_f, end_f]`.
`li`/`ri` are the landmark indices of the bilateral pair (hips 23/24,
shoulders 11/12; `_safe_vec` without fallback returns the point regardless
of visibility). -/
def pairAngleSeries (pairAngle : ℚ → ℚ → ℚ) (li ri : ℕ) (frames : List PoseFrame)
    (startF endF : ℕ) : List ℚ :=
  ((List.range' startF (endF + 1 - startF)).map fun f => (frames.getD f default).landmarks).foldl
    (pairSeriesStep pairAngle li ri) []

/-- `HipShoulderMismatchRisk.compute`
(`app/risk/hip_shoulder_mismatch_risk.py`) on the hip/shoulder angle series
produced by `compute_pair_angle_series`.  The missing-`events`-key guard is
dead at the stage's call site (both keys are always passed); the
insufficient-frames guard returns the `UNKNOWN` `_empty` result.  The
window slices the series arrays with the absolute frame indices
`[bfc:ffc]`; when fewer than 2 samples result, `np.gradient` raises and the
stage's `try` swallows the exception (`none` in the model). -/
def hsmCompute (hip sh : List ℚ) (bfc ffc : ℕ) (dt I : ℚ) : Option RawRisk :=
  if ffc ≤ bfc + 2 then some ⟨.HIP_SHOULDER_MISMATCH, .unknown, []⟩
  else
    let separation := List.zipWith (fun a b => a - b) ((sh.drop bfc).take (ffc - bfc))
      ((hip.drop bfc).take (ffc - bfc))
    if separation.length < 2 then none
    else
      let sepJerk := npGradientDt (npGradientDt (npGradientDt separation dt) dt) dt
      let sepChange := maxList separation - minList separation
      let peakJerk := maxList (sepJerk.map abs)
      let tSep := (1 - I) * 18 + I * 12
      let tJerk := (1 - I) * 250 + I * 180
      let level : RiskLevel :=
        if decide (tSep < sepChange) && decide (tJerk < peakJerk) then .high else .low
      some ⟨.HIP_SHOULDER_MISMATCH, level, []⟩

/-- The risk-computation section of `biomech_stage.run` (lines 175-271):
run front-foot braking, hip-shoulder mismatch (on the pair-angle series
over the BFC→FFC window, at `I = 0.7` and `dt = 1/fps`), lateral trunk lean
(with the cannot-dominate downgrade, at `I = 0.7`), front-knee collapse,
and aggregate the formatted findings into `ctx.biomech.risk`. -/
def biomechRisk (kneeAng trunkTheta : List Joint → ℚ) (gsmoothUnwrap : List ℚ → List ℚ)
    (pairAngle : ℚ → ℚ → ℚ) (frames : List PoseFrame) (bfc ffc uah release : ℕ)
    (fps : ℚ) : RiskSummary :=
  let ffb := ffbCompute frames ffc release fps
  let hsm := hsmCompute (pairAngleSeries pairAngle 23 24 frames bfc ffc)
    (pairAngleSeries pairAngle 11 12 frames bfc ffc) bfc ffc (1 / fps) (7 / 10)
  let ltl := ltlCompute trunkTheta gsmoothUnwrap frames ffc uah (7 / 10)
  let fnc := fncCompute kneeAng frames ffc release
  mkRiskSummary (buildFormatted ffb hsm ltl fnc)

/-! The in-place arm-joint interpolation of `biomech_stage.py`
(lines 24-84), rendered functionally: the returned list is the state of
`ctx.pose.frames` after the stage ran, since the source mutates the frames
of the pose stage's output directly. -/

/-- The backward scan `while prev_idx >= start_idx and
pose_frames[prev_idx].landmarks is None: prev_idx -= 1`, returning the
found index, or `none` when the scan leaves the window (the source then
`continue`s). -/
def scanPrev (frames : List PoseFrame) (start : ℕ) : ℕ → Option ℕ
  | 0 =>
    if start = 0 ∧ ((frames.getD 0 default).landmarks).isSome then some 0 else none
  | i + 1 =>
    if i + 1 < start then none
    else if ((frames.getD (i + 1) default).landmarks).isSome then some (i + 1)
    else scanPrev frames start i

/-- Fuel-driven forward scan `while next_idx <= end_idx and
pose_frames[next_idx].landmarks is None: next_idx += 1`. -/
def scanNextAux (frames : List PoseFrame) (endI : ℕ) : ℕ → ℕ → Option ℕ
  | 0, _ => none
  | fuel + 1, i =>
    if endI < i then none
    else if ((frames.getD i default).landmarks).isSome then some i
    else scanNextAux frames endI fuel (i + 1)

/-- The forward scan from `idx + 1`; `none` when it exits the window. -/
def scanNext (frames : List PoseFrame) (endI i : ℕ) : Option ℕ :=
  scanNextAux frames endI (endI + 1 - i) i

/-- `interp_vec(a, b, t) = a + t * (b - a)` on one landmark, with the
visibility the source assigns to interpolated joints (`"vis": 1.0`). -/
def interpJoint (pA pB : Joint) (t : ℚ) : Joint :=
  ⟨pA.x + t * (pB.x - pA.x), pA.y + t * (pB.y - pA.y), pA.z + t * (pB.z - pA.z), 1⟩

/-- The `new_lm` list built for one repaired frame: the previous frame's
landmarks with the three primary arm joints replaced by interpolated
points. -/
def interpFrameLm (hand : Hand) (prevLm nextLm : List Joint) (t : ℚ) : List Joint :=
  let s := primaryIdx hand .shoulder
  let e := primaryIdx hand .elbow
  let w := primaryIdx hand .wrist
  ((prevLm.set s (interpJoint (getJ prevLm s) (getJ nextLm s) t)).set e
      (interpJoint (getJ prevLm e) (getJ nextLm e) t)).set w
    (interpJoint (getJ prevLm w) (getJ nextLm w) t)

/-- One iteration of the repair loop: scan both ways from `idx` over the
current (already partially repaired) list and, when both neighbours exist
inside the window, overwrite `pose_frames[idx]` with the interpolated
landmarks at confidence `1.0`; otherwise leave the list untouched
(`continue`). -/
def interpStep (hand : Hand) (start endI : ℕ) (frames : List PoseFrame) (idx : ℕ) :
    List PoseFrame :=
  let prevRes := if idx = 0 then none else scanPrev frames start (idx - 1)
  match prevRes, scanNext frames endI (idx + 1) with
  | some p, some nx =>
    let prevLm := ((frames.getD p default).landmarks).getD []
    let nextLm := ((frames.getD nx default).landmarks).getD []
    let t := ((idx : ℚ) - (p : ℚ)) / ((nx : ℚ) - (p : ℚ))
    frames.set idx ⟨some (interpFrameLm hand prevLm nextLm t), 1⟩
  | _, _ => frames

/-- The indices with missing landmarks inside `[start_idx, end_idx]`,
computed up front from the unrepaired list. -/
def missingIdxs (frames : List PoseFrame) (start endI : ℕ) : List ℕ :=
  (List.range' start (endI + 1 - start)).filter fun i =>
    ((frames.getD i default).landmarks).isNone

/-- `interpolate_arm_joints(pose_frames, mapper, start_idx, end_idx)`
(`biomech_stage.py` lines 34-84): returns the source's boolean result
paired with the frame list after the in-place mutations.  No missing
frames: `(True, unchanged)`; more than `MAX_INTERP_GAP = 7` missing:
`(False, unchanged)`; otherwise each missing index is repaired in
ascending order against the current list. -/
def interpolateArmJoints (hand : Hand) (frames : List PoseFrame) (start endI : ℕ) :
    Bool × List PoseFrame :=
  let missing := missingIdxs frames start endI
  if missing.isEmpty then (true, frames)
  else if 7 < missing.length then (false, frames)
  else (true, missing.foldl (interpStep hand start endI) frames)

/-- The pose-frame list visible to later stages after the Biomech
Extractor ran its interpolation (`biomech_stage.run` line 106 mutates
`ctx.pose.frames` through `interpolate_arm_joints`). -/
def biomechFramesAfter (hand : Hand) (frames : List PoseFrame) (fUah fRel : ℕ) :
    List PoseFrame :=
  (interpolateArmJoints hand frames fUah fRel).2

/-! Alignment primitives (`app/pipeline/hip_alignment.py`,
`shoulder_alignment.py`, `shoulder_hip_separation.py`,
`backfoot_landing_angle.py`).  The `_angle_2d` helper of the three
arccos-based stages is carried as an oracle `angle2D vx vz` standing for
`degrees(arccos(clip(dot((vx,vz),(1,0)) / (n1*n2), -1, 1)))`, returning
`none` when a vector norm is below `1e-6`; the shoulder stage's
`abs(degrees(arctan2(dy, dx)))` is the oracle `shoulderAng dx dy`. -/

/-- Python's `round` (banker's rounding, half to even) on a rational. -/
def roundHalfEven (x : ℚ) : ℤ :=
  let f := ⌊x⌋
  if x - f < 1 / 2 then f
  else if 1 / 2 < x - f then f + 1
  else if f % 2 = 0 then f else f + 1

/-- Python's `round(x, 2)`. -/
def round2 (x : ℚ) : ℚ := (roundHalfEven (x * 100) : ℚ) / 100

/-- The dict stored for the hip, shoulder-hip-separation and back-foot
primitives: angle (or separation), zone label, confidence and source
frame. -/
structure ZonePrim where
  angle : ℚ
  zone : String
  confidence : ℚ
  frame : ℕ
deriving DecidableEq

/-- The dict stored by `shoulder_alignment.run` — note it has no
confidence field at all. -/
structure ShoulderPrim where
  angle : ℚ
  zone : String
  frame : ℕ
deriving DecidableEq

/-- The handedness mirroring and `[0, 90]` folding shared by the
arccos-based stages: left-handed mirrors (`180 - ang`), then `abs`, then
fold `> 90` to `180 - ang`. -/
def foldAngle (hand : Hand) (ang : ℚ) : ℚ :=
  let a1 := if hand = Hand.left then 180 - ang else ang
  let a2 := |a1|
  if 90 < a2 then 180 - a2 else a2

/-- `hip_alignment.run`: at the FFC frame, the pelvis line (landmarks
23/24) projected to the ground plane, against the camera x axis; zones at
30/55 degrees; the stored confidence is `round(ctx.events.ffc.conf, 2)` —
the FFC anchor confidence, which lives on the 0-100 scale. -/
def hipAlignment (angle2D : ℚ → ℚ → Option ℚ) (hand : Hand) (frames : List PoseFrame)
    (ffc : EventFrame) : Option ZonePrim :=
  if frames.length ≤ ffc.frame then none
  else
    match (frames.getD ffc.frame default).landmarks with
    | none => none
    | some lm =>
      match angle2D ((getJ lm 24).x - (getJ lm 23).x) ((getJ lm 24).z - (getJ lm 23).z) with
      | none => none
      | some ang0 =>
        let ang := foldAngle hand ang0
        let zone := if ang ≤ 30 then "SIDE_ON"
          else if ang ≤ 55 then "TRANSITIONAL"
          else "FRONT_ON"
        some ⟨round2 ang, zone, round2 ffc.conf, ffc.frame⟩

/-- `shoulder_alignment.run`: at the UAH frame, the image-plane shoulder
line angle (landmarks 11/12), folded to `[0, 90]`, zones at 25/65; no
handedness mirroring and no confidence in the output. -/
def shoulderAlignment (shoulderAng : ℚ → ℚ → ℚ) (frames : List PoseFrame)
    (uah : EventFrame) : Option ShoulderPrim :=
  if frames.length ≤ uah.frame then none
  else
    match (frames.getD uah.frame default).landmarks with
    | none => none
    | some lm =>
      let a0 := shoulderAng ((getJ lm 12).x - (getJ lm 11).x) ((getJ lm 12).y - (getJ lm 11).y)
      let ang := if 90 < a0 then 180 - a0 else a0
      let zone := if ang ≤ 25 then "SIDE_ON"
        else if 65 ≤ ang then "FRONT_ON"
        else "MIXED"
      some ⟨round2 ang, zone, uah.frame⟩

/-- `shoulder_hip_separation.run`: at the FFC frame, the difference of the
folded shoulder-line and hip-line ground-plane angles, clamped to
`[-90, 90]`, zones on the absolute separation at 10/25; the stored
confidence is again `round(ctx.events.ffc.conf, 2)`. -/
def shoulderHipSep (angle2D : ℚ → ℚ → Option ℚ) (hand : Hand) (frames : List PoseFrame)
    (ffc : EventFrame) : Option ZonePrim :=
  if frames.length ≤ ffc.frame then none
  else
    match (frames.getD ffc.frame default).landmarks with
    | none => none
    | some lm =>
      match angle2D ((getJ lm 12).x - (getJ lm 11).x) ((getJ lm 12).z - (getJ lm 11).z),
        angle2D ((getJ lm 24).x - (getJ lm 23).x) ((getJ lm 24).z - (getJ lm 23).z) with
      | some sh0, some hip0 =>
        let separation := max (-90) (min 90 (foldAngle hand sh0 - foldAngle hand hip0))
        let zone := if |separation| < 10 then "LOW"
          else if |separation| < 25 then "MODERATE"
          else "HIGH"
        some ⟨round2 separation, zone, round2 ffc.conf, ffc.frame⟩
      | _, _ => none

/-- The back-foot heel landmark index: right foot for a right-arm
bowler. -/
def heelIdx : Hand → ℕ
  | .right => 30
  | .left => 29

/-- The back-foot toe landmark index. -/
def toeIdx : Hand → ℕ
  | .right => 32
  | .left => 31

/-- The reverse AIR→CONTACT scan of `backfoot_landing_angle.run`
(`for i in range(ffc_frame - 1, 0, -1)`).  Frames without landmarks (or a
heel-access error) reset the airborne counter; a heel above the FFC heel
height plus `air_threshold = 0.02` counts as airborne; otherwise the frame
is the contact frame if at least `min_air_frames = 2` airborne frames
preceded it (in scan order), else the counter resets. -/
def bfScan (frames : List PoseFrame) (hIdx : ℕ) (refY : ℚ) : ℕ → ℕ → Option ℕ
  | 0, _ => none
  | i + 1, air =>
    match (frames.getD (i + 1) default).landmarks with
    | none => bfScan frames hIdx refY i 0
    | some lm =>
      if refY + 1 / 50 < (getJ lm hIdx).y then bfScan frames hIdx refY i (air + 1)
      else if 2 ≤ air then some (i + 1)
      else bfScan frames hIdx refY i 0

/-- Result of `backfoot_landing_angle.run`: the stage stores a primitive,
stores nothing, or raises.  The raise is real: the scan's airborne
comparison reads `pose_frames[ffc_frame].landmarks[heel_idx]` outside any
`try`, so when the FFC frame has no landmarks and some scanned frame has
them, a `TypeError` escapes the stage and is caught only by
`biomech_stage.run`'s outer `except`, which aborts the whole stage. -/
inductive BackfootResult where
  | exc
  | noPrim
  | prim (p : ZonePrim)
deriving DecidableEq

/-- `backfoot_landing_angle.run`: guard on `ffc_frame <= 2` or out of
range, reverse AIR→CONTACT scan anchored on the FFC heel height, then the
ground-plane foot orientation at the landing frame, folded to `[0, 90]`,
zones CLOSED below 20, NEUTRAL below 45, else OPEN; the stored confidence
is `round(ctx.events.ffc.conf, 2)`. -/
def backfootLanding (angle2D : ℚ → ℚ → Option ℚ) (hand : Hand) (frames : List PoseFrame)
    (ffc : EventFrame) : BackfootResult :=
  if ffc.frame ≤ 2 ∨ frames.length ≤ ffc.frame then .noPrim
  else
    match (frames.getD ffc.frame default).landmarks with
    | none =>
      if ((List.range' 1 (ffc.frame - 1)).any fun i =>
          ((frames.getD i default).landmarks).isSome) then .exc
      else .noPrim
    | some lmF =>
      match bfScan frames (heelIdx hand) ((getJ lmF (heelIdx hand)).y) (ffc.frame - 1) 0 with
      | none => .noPrim
      | some c =>
        match (frames.getD c default).landmarks with
        | none => .noPrim
        | some lm =>
          match angle2D ((getJ lm (toeIdx hand)).x - (getJ lm (heelIdx hand)).x)
            ((getJ lm (toeIdx hand)).z - (getJ lm (heelIdx hand)).z) with
          | none => .noPrim
          | some ang0 =>
            let ang := foldAngle hand ang0
            let zone := if ang < 20 then "CLOSED"
              else if ang < 45 then "NEUTRAL"
              else "OPEN"
            .prim ⟨round2 ang, zone, round2 ffc.conf, c⟩

/-! The analysis route (`app/routes/analyze_route.py`): events stage,
biomech stage (interpolation, elbow mechanics, release height, alignment
primitives, gated risk computation) and the action matrix
(`app/pipeline/action_matrix.py`), composed into one function of the
inputs.  The `bowler_type` input is stored on the context
(`app/models/input_model.py`) and echoed in the response, but read by no
stage modelled here. -/

/-- Insertion into a sorted rational list, for `np.median`. -/
def insertSortedQ (x : ℚ) : List ℚ → List ℚ
  | [] => [x]
  | y :: ys => if x ≤ y then x :: y :: ys else y :: insertSortedQ x ys

/-- Insertion sort on rationals. -/
def sortQ : List ℚ → List ℚ
  | [] => []
  | x :: xs => insertSortedQ x (sortQ xs)

/-- `np.median` on a rational sample: middle element of the sorted list,
or the mean of the two middle elements when the length is even; the
stage's call sites guarantee a nonempty sample. -/
def ratMedian (vals : List ℚ) : ℚ :=
  let s := sortQ vals
  if s.length = 0 then 0
  else if s.length % 2 = 1 then s.getD (s.length / 2) 0
  else (s.getD (s.length / 2 - 1) 0 + s.getD (s.length / 2) 0) / 2

/-- The local `median(vals, idx, r=2)` of `biomech_stage.run`: the median
of the slice `vals[max(0, idx - 2) : min(len(vals), idx + 3)]` (the lower
bound is ℕ truncated subtraction). -/
def medianWin (vals : List ℚ) (idx : ℕ) : ℚ :=
  ratMedian ((vals.drop (idx - 2)).take (min vals.length (idx + 3) - (idx - 2)))

/-- `elbow_flexion` (`app/utils/angles.py`) expressed through the external
arm angle `ext` — the same arccos value the events stage computes, carried
by the `armAng` oracle: `180 - ext` clamped to `[0, 165]`. -/
def elbowFlexionOf (ext : ℚ) : ℚ := min 165 (max 0 (180 - ext))

/-- The per-frame flexion samples of the biomech stage over
`pose_frames[: f_rel + 1]`; frames without landmarks contribute `0.0`. -/
def flexSamples (armAng : List Joint → ℚ) (frames : List PoseFrame) (fRel : ℕ) :
    List ℚ :=
  (frames.take (fRel + 1)).map fun pf =>
    match pf.landmarks with
    | none => 0
    | some lm => elbowFlexionOf (armAng lm)

/-- `ctx.biomech.elbow` (`BiomechElbowModel`), with the fields the stage
computes; `extension_note` is the constant string and is omitted. -/
structure ElbowProfile where
  uahAngle : ℚ
  releaseAngle : ℚ
  peakExtensionAngleDeg : ℚ
  peakExtensionFrame : ℕ
  extensionDeg : ℚ
  extensionRawDeg : ℚ
  extensionErrorMarginDeg : ℚ
deriving DecidableEq

/-- The elbow-mechanics block of `biomech_stage.run` (lines 113-131):
median-windowed extensions at UAH and Release, their clamped difference,
and the peak external angle over the whole pre-Release window. -/
def elbowProfileOf (armAng : List Joint → ℚ) (frames : List PoseFrame)
    (fUah fRel : ℕ) : ElbowProfile :=
  let flex := flexSamples armAng frames fRel
  let uahExt := 180 - medianWin flex fUah
  let relExt := 180 - medianWin flex fRel
  ⟨uahExt, relExt, 180 - maxList flex, fRel, max 0 (relExt - uahExt),
    180 - maxList flex, 6⟩

/-- `ctx.biomech.release_height` (`ReleaseHeightModel`). -/
structure ReleaseHeight where
  normHeight : ℚ
  wristY : ℚ
deriving DecidableEq

/-- The release-height block (`biomech_stage.run` lines 136-140): `none`
models the `TypeError` the source raises when the Release frame has no
landmarks (`mapper.vec` on `None`), which aborts the stage through its
outer `except`. -/
def releaseHeightOf (hand : Hand) (frames : List PoseFrame) (fRel : ℕ) :
    Option ReleaseHeight :=
  match (frames.getD fRel default).landmarks with
  | none => none
  | some lm =>
    let wY := (getJ lm (primaryIdx hand .wrist)).y
    let sY := (getJ lm (primaryIdx hand .shoulder)).y
    let eY := (getJ lm (primaryIdx hand .elbow)).y
    some ⟨wY - (sY + eY) / 2, wY⟩

/-- `ctx.decision.action_matrix`: the action label, quality tag and the
three zone inputs it was derived from. -/
structure ActionState where
  action : String
  quality : String
  hipIn : Option String
  shoulderHipIn : Option String
  backfootIn : Option String
deriving DecidableEq

/-- `action_matrix.run`: graceful degradation to `INSUFFICIENT_DATA` when
any zone is missing or empty (Python truthiness), otherwise the 11-entry
`ACTION_MATRIX` lookup with the `UNCLASSIFIED_ACTION` fallback. -/
def actionLookup (hip sh bf : Option String) : ActionState :=
  match hip, sh, bf with
  | some h, some s, some b =>
    if h = "" ∨ s = "" ∨ b = "" then ⟨"INSUFFICIENT_DATA", "UNKNOWN", hip, sh, bf⟩
    else
      let aq : String × String :=
        if h = "SIDE_ON" ∧ s = "HIGH" ∧ b = "CLOSED" then ("ELASTIC_LOAD", "OPTIMAL")
        else if h = "SIDE_ON" ∧ s = "MODERATE" ∧ b = "CLOSED" then
          ("CONTROLLED_LOAD", "GOOD")
        else if h = "FRONT_ON" ∧ s = "LOW" ∧ b = "OPEN" then
          ("FRONT_ON_COLLAPSE", "HIGH_RISK")
        else if h = "FRONT_ON" ∧ s = "MODERATE" ∧ b = "OPEN" then
          ("FRONT_ON_FORCE", "RISK")
        else if h = "SIDE_ON" ∧ s = "LOW" ∧ b = "OPEN" then
          ("MIXED_ACTION", "HIGH_RISK")
        else if h = "TRANSITIONAL" ∧ s = "LOW" ∧ b = "OPEN" then
          ("MIXED_ACTION", "HIGH_RISK")
        else if h = "TRANSITIONAL" ∧ s = "MODERATE" ∧ b = "OPEN" then
          ("MIXED_ACTION", "RISK")
        else if h = "TRANSITIONAL" ∧ s = "MODERATE" ∧ b = "NEUTRAL" then
          ("CONTROLLED_ACTION", "OK")
        else if h = "SIDE_ON" ∧ s = "LOW" ∧ b = "NEUTRAL" then
          ("LOW_SEPARATION", "SUBOPTIMAL")
        else if h = "SIDE_ON" ∧ s = "LOW" ∧ b = "CLOSED" then ("SAFE_BUT_WEAK", "OK")
        else if h = "FRONT_ON" ∧ s = "HIGH" ∧ b = "NEUTRAL" then
          ("FORCED_ROTATION", "RISK")
        else ("UNCLASSIFIED_ACTION", "UNKNOWN")
      ⟨aq.1, aq.2, hip, sh, bf⟩
  | _, _, _ => ⟨"INSUFFICIENT_DATA", "UNKNOWN", hip, sh, bf⟩

/-- The analysis response fields downstream of the pose stage: the events
result, the biomech error slot, elbow profile, release height, elbow
confidence, the four alignment primitives, the risk summary, the action
state and the echoed `bowler_type`. -/
structure AnalyzeOut where
  events : EventsResult
  biomechError : Option String
  elbow : Option ElbowProfile
  releaseHeight : Option ReleaseHeight
  elbowConf : Option ℚ
  hip : Option ZonePrim
  shoulder : Option ShoulderPrim
  shoulderHip : Option ZonePrim
  backfoot : BackfootResult
  risk : Option RiskSummary
  action : ActionState
  bowlerType : String

/-- `biomech_stage.run` followed by `action_matrix.run` on an events
result.  `frames` is `ctx.pose.frames`: the events stage rebinds only its
local variable, so the biomech stage sees the unfiltered list while the
anchor indices address the filtered one.  On an events error the biomech
guard trips (`events.release` is unset); when interpolation fails the
stage stops with `"Arm landmarks insufficient"`; when the Release frame
lacks landmarks the release-height block raises before the alignment
stages run; when the back-foot stage raises, the three primitives already
stored survive but the elbow, release-height and risk outputs are never
written. -/
def biomechAndAction (armAng kneeAng trunkTheta : List Joint → ℚ)
    (gsmoothUnwrap : List ℚ → List ℚ) (pairAngle : ℚ → ℚ → ℚ)
    (angle2D : ℚ → ℚ → Option ℚ) (shoulderAng : ℚ → ℚ → ℚ) (hand : Hand)
    (frames : List PoseFrame) (fps : ℚ) (bowlerType : String) (ev : EventsResult) :
    AnalyzeOut :=
  match ev with
  | .error msg =>
    ⟨.error msg, some "Missing pose or mandatory events", none, none, none, none,
      none, none, .noPrim, none, actionLookup none none none, bowlerType⟩
  | .ok b f u r =>
    let rep := interpolateArmJoints hand frames u.frame r.frame
    if rep.1 then
      match releaseHeightOf hand rep.2 r.frame with
      | none =>
        ⟨ev, some "TypeError", none, none, none, none, none, none, .noPrim, none,
          actionLookup none none none, bowlerType⟩
      | some rh =>
        let hip := hipAlignment angle2D hand rep.2 f
        let sh := shoulderAlignment shoulderAng rep.2 u
        let shHip := shoulderHipSep angle2D hand rep.2 f
        let bf := backfootLanding angle2D hand rep.2 f
        let act := actionLookup (hip.map ZonePrim.zone) (shHip.map ZonePrim.zone)
          (match bf with | .prim p => some p.zone | _ => none)
        match bf with
        | .exc =>
          ⟨ev, some "TypeError", none, none, none, hip, sh, shHip, .exc, none, act,
            bowlerType⟩
        | _ =>
          ⟨ev, none, some (elbowProfileOf armAng rep.2 u.frame r.frame), some rh,
            some ((r.conf + u.conf) / 2), hip, sh, shHip, bf,
            some (biomechRisk kneeAng trunkTheta gsmoothUnwrap pairAngle rep.2
              b.frame f.frame u.frame r.frame fps), act, bowlerType⟩
    else
      ⟨ev, some "Arm landmarks insufficient", none, none, none, none, none, none,
        .noPrim, none, actionLookup none none none, bowlerType⟩

/-- The pipeline from the events stage onward as one function of its
inputs (frames, handedness, fps, bowler type), at fixed transcendental
geometry (the oracle parameters, which are functions of the landmark data
alone). -/
def analyze (armAng kneeAng trunkTheta : List Joint → ℚ)
    (gsmoothUnwrap : List ℚ → List ℚ) (pairAngle : ℚ → ℚ → ℚ)
    (angle2D : ℚ → ℚ → Option ℚ) (shoulderAng : ℚ → ℚ → ℚ) (hand : Hand)
    (frames : List PoseFrame) (fps : ℚ) (bowlerType : String) : AnalyzeOut :=
  biomechAndAction armAng kneeAng trunkTheta gsmoothUnwrap pairAngle angle2D
    shoulderAng hand frames fps bowlerType (runEvents armAng hand frames)

/-- Modelled from the spec: the front-knee-collapse grading as the spec
states it — the angle at Release is the sample at the Release frame, and
`delta` subtracts the minimum knee angle strictly after Release — for
comparison with `fncCompute`, which anchors both on the first occurrence
of the nearest-to-Release value. -/
def fncSpecLevel (kneeAng : List Joint → ℚ) (frames : List PoseFrame)
    (ffc release : ℕ) : RiskLevel :=
  let samples := fncSamples kneeAng frames ffc release
  let angleFfc := (samples.map Prod.snd).getD 0 0
  let angleRel := ((samples.filter fun s => s.1 = release).map Prod.snd).getD 0 0
  let minAfter := minList ((samples.filter fun s => release < s.1).map Prod.snd)
  fncGrade angleRel (angleFfc - minAfter)

/-! Concrete inputs for closed evaluations. -/

/-- Base landmark entry used in concrete evaluations: origin point, fully
visible. -/
def baseJoint : Joint := ⟨0, 0, 0, 1⟩

/-- A fully visible 33-entry landmark list whose primary (right-hand) arm
has humerus `S - E = (0,1,0)` and forearm `W - E = (1,0,0)`: exactly
perpendicular vectors, so the source's external elbow angle on these
landmarks is `degrees(arccos(0 / (1*1 + 1e-9))) = 90` exactly.  The right
hip (24) sits at `(1,0,0)` so the pelvis line `R - L = (1,0,0)` projects to
the ground-plane vector `(1,0)`, for which `_angle_2d` returns exactly 0
degrees (`cos = 1` before clipping, norms exactly 1). -/
def lmPerp : List Joint :=
  (((List.replicate 33 baseJoint).set 12 ⟨0, 1, 0, 1⟩).set 16 ⟨1, 0, 0, 1⟩).set 24
    ⟨1, 0, 0, 1⟩

/-- The `_angle_2d` oracle on the axis-aligned vectors of the concrete
inputs: the zero vector has norms below `1e-6` (`none`), and a
positive-x-axis vector satisfies `cos = 1` exactly, hence 0 degrees; no
other input shape is exercised by the concrete runs (45 is an arbitrary
in-range value for them). -/
def angle2DAxis : ℚ → ℚ → Option ℚ := fun vx vz =>
  if vx = 0 ∧ vz = 0 then none
  else if vz = 0 ∧ 0 < vx then some 0
  else some 45

/-- The external-elbow-angle oracle for runs whose frames all carry
`lmPerp`: the source's computation returns exactly 90 degrees there. -/
def armAng90 : List Joint → ℚ := fun _ => 90

/-- A frame carrying the perpendicular-arm landmarks at confidence 1. -/
def framePerp : PoseFrame := ⟨some lmPerp, 1⟩

/-- Five identical fully visible frames. -/
def framesAllValid : List PoseFrame := List.replicate 5 framePerp

/-- Six frames: the first has no landmarks (it fails the visibility filter),
the other five are fully visible. -/
def framesOneInvalid : List PoseFrame := ⟨none, 0⟩ :: List.replicate 5 framePerp

/-- Eight frames carrying no landmarks at all (total pose loss). -/
def framesNone : List PoseFrame := List.replicate 8 ⟨none, 0⟩

/-- Five frames whose middle frame lost its landmarks: the Biomech
Extractor's interpolation will fill it in place. -/
def framesGap : List PoseFrame :=
  [framePerp, framePerp, ⟨none, 0⟩, framePerp, framePerp]

/-- Oracle instantiation for runs whose frames never reach an oracle call
(every landmark set of `framesNone` is absent). -/
def kneeAng0 : List Joint → ℚ := fun _ => 0

/-- Oracle instantiation for runs that never reach a trunk-angle call. -/
def trunkTheta0 : List Joint → ℚ := fun _ => 0

/-- Oracle instantiation for runs that never reach the Gaussian smoother. -/
def gsmooth0 : List ℚ → List ℚ := fun l => l

/-- Oracle instantiation for runs that never reach a pair-angle call. -/
def pairAngle0 : ℚ → ℚ → ℚ := fun _ _ => 0

/-- The spec's ordering invariant on the four anchors of an `ok` events
result (vacuous on the error result, where not all anchors are produced). -/
def anchorsOrdered : EventsResult → Prop
  | .error _ => True
  | .ok b f u r => b.frame < f.frame ∧ f.frame < u.frame ∧ u.frame < r.frame

/-- The Release frame index of an events result, when anchors were
emitted. -/
def emittedRelease : EventsResult → Option ℕ
  | .error _ => none
  | .ok _ _ _ r => some r.frame

/-- A near-flat V-shaped knee-angle curve: `94.95 + |0.15 x - 25.05|`,
falling by `0.15°` per frame from `120°` at frame 0 to `94.95°` at frame
167, then rising by `0.15°` per frame.  The per-frame step stays within
the `0.15°` jitter tolerance of `signal_quality`. -/
def vRamp (x : ℚ) : ℚ := 1899 / 20 + |3 / 20 * x - 501 / 20|

/-- Knee-angle oracle reading the frame number stored in landmark 0's x
coordinate; geometric knee angles in `(0°, 180°)` realise these values. -/
def kneeAngRamp : List Joint → ℚ := fun lm => vRamp (getJ lm 0).x

/-- 187 frames whose landmark 0 stores the frame number, so the knee-angle
oracle can depend on the frame. -/
def framesRamp : List PoseFrame :=
  List.map (fun f : ℕ => ⟨some [⟨(f : ℚ), 0, 0, 1⟩], 1⟩) (List.range 187)

/-- The ramp curve on natural frame numbers. -/
def vRampN (f : ℕ) : ℚ := vRamp (f : ℚ)

/-- The `(frame, angle)` sample the FNC calculator collects at frame `f`
of the ramp input. -/
def rampSample (f : ℕ) : ℕ × ℚ := (f, vRampN f)

/-- The FNC value series on the ramp input. -/
def rampValues : List ℚ := List.map vRampN (List.range 187)

/-- A short rising knee-angle curve (`100 + 0.1 f`), braced at Release. -/
def kneeAngFlat : List Joint → ℚ := fun lm => 100 + (getJ lm 0).x / 10

/-- Six frames whose landmark 0 stores the frame number. -/
def framesFlat : List PoseFrame :=
  [⟨some [⟨0, 0, 0, 1⟩], 1⟩, ⟨some [⟨1, 0, 0, 1⟩], 1⟩, ⟨some [⟨2, 0, 0, 1⟩], 1⟩,
    ⟨some [⟨3, 0, 0, 1⟩], 1⟩, ⟨some [⟨4, 0, 0, 1⟩], 1⟩, ⟨some [⟨5, 0, 0, 1⟩], 1⟩]

/-! Bound lemmas for the numeric helpers. -/

theorem argmaxAux_lt (vs : List ℚ) : ∀ i bi bv, bi < i → argmaxAux vs i bi bv < i + vs.length := by
  induction vs with
  | nil => intro i bi bv h; simpa [argmaxAux] using h
  | cons v vs ih =>
    intro i bi bv h
    simp only [argmaxAux]
    split
    · have h2 := ih (i + 1) i v (Nat.lt_succ_self i)
      simp only [List.length_cons]
      omega
    · have h2 := ih (i + 1) bi bv (h.trans (Nat.lt_succ_self i))
      simp only [List.length_cons]
      omega

theorem argmaxIdx_lt (v : List ℚ) (h : v ≠ []) : argmaxIdx v < v.length := by
  match v with
  | x :: xs =>
    have h2 := argmaxAux_lt xs 1 0 x Nat.zero_lt_one
    simp only [argmaxIdx, List.length_cons]
    omega

theorem argminAux_lt (vs : List ℚ) : ∀ i bi bv, bi < i → argminAux vs i bi bv < i + vs.length := by
  induction vs with
  | nil => intro i bi bv h; simpa [argminAux] using h
  | cons v vs ih =>
    intro i bi bv h
    simp only [argminAux]
    split
    · have h2 := ih (i + 1) i v (Nat.lt_succ_self i)
      simp only [List.length_cons]
      omega
    · have h2 := ih (i + 1) bi bv (h.trans (Nat.lt_succ_self i))
      simp only [List.length_cons]
      omega

theorem argminIdx_lt (v : List ℚ) (h : v ≠ []) : argminIdx v < v.length := by
  match v with
  | x :: xs =>
    have h2 := argminAux_lt xs 1 0 x Nat.zero_lt_one
    simp only [argminIdx, List.length_cons]
    omega

theorem length_insertSorted (a : ℕ) (l : List ℕ) :
    (insertSorted a l).length = l.length + 1 := by
  induction l with
  | nil => rfl
  | cons b bs ih =>
    simp only [insertSorted]
    split <;> simp [ih]

theorem length_sortNat (l : List ℕ) : (sortNat l).length = l.length := by
  induction l with
  | nil => rfl
  | cons a l ih =>
    simp only [sortNat, List.foldr_cons] at ih ⊢
    rw [length_insertSorted, ih, List.length_cons]

theorem mem_insertSorted (a x : ℕ) (l : List ℕ) (h : x ∈ insertSorted a l) :
    x = a ∨ x ∈ l := by
  induction l with
  | nil => simpa [insertSorted] using h
  | cons b bs ih =>
    simp only [insertSorted] at h
    split at h
    · simpa using h
    · rcases List.mem_cons.mp h with h | h
      · simp [h]
      · rcases ih h with h | h
        · exact Or.inl h
        · exact Or.inr (List.mem_cons_of_mem _ h)

theorem mem_sortNat (x : ℕ) (l : List ℕ) (h : x ∈ sortNat l) : x ∈ l := by
  induction l with
  | nil => simp [sortNat] at h
  | cons a as ih =>
    simp only [sortNat, List.foldr_cons] at h
    rcases mem_insertSorted a x _ h with h | h
    · simp [h]
    · exact List.mem_cons_of_mem _ (ih h)

theorem medianInt_lt (l : List ℕ) (n : ℕ) (h0 : l ≠ []) (h : ∀ x ∈ l, x < n) :
    medianInt l < n := by
  have hlen : (sortNat l).length = l.length := length_sortNat l
  have hpos : 0 < (sortNat l).length := by
    rw [hlen]; exact List.length_pos.mpr h0
  have hmem : ∀ i, i < (sortNat l).length → (sortNat l).getD i 0 < n := by
    intro i hi
    rw [List.getD_eq_getElem _ _ hi]
    exact h _ (mem_sortNat _ _ (List.getElem_mem hi))
  simp only [medianInt]
  split
  · exact hmem _ (by omega)
  · have h1 := hmem ((sortNat l).length / 2 - 1) (by omega)
    have h2 := hmem ((sortNat l).length / 2) (by omega)
    omega

theorem smooth3_length (v : List ℚ) : (smooth3 v).length = v.length := by
  unfold smooth3
  split
  · rfl
  · simp

theorem npGradient_length (v : List ℚ) (h : 2 ≤ v.length) :
    (npGradient v).length = v.length := by
  unfold npGradient
  split
  · omega
  · simp

theorem rotationVals_length (hand : Hand) (frames : List PoseFrame) :
    ∀ prev, (rotationVals hand frames prev).length = frames.length := by
  induction frames with
  | nil => intro prev; rfl
  | cons pf rest ih =>
    intro prev
    unfold rotationVals
    cases pf.landmarks <;> simp [ih]

theorem releaseCurve_length (armAng : List Joint → ℚ) (frames : List PoseFrame) :
    (releaseCurve armAng frames).length = frames.length := by
  simp [releaseCurve, smooth3_length]

theorem flexionCurve_length (armAng : List Joint → ℚ) (frames : List PoseFrame) :
    (flexionCurve armAng frames).length = frames.length := by
  simp [flexionCurve, smooth3_length]

theorem elevationCurve_length (hand : Hand) (frames : List PoseFrame) :
    (elevationCurve hand frames).length = frames.length := by
  simp [elevationCurve, smooth3_length]

theorem rotationCurve_length (hand : Hand) (frames : List PoseFrame) :
    (rotationCurve hand frames).length = frames.length := by
  simp [rotationCurve, smooth3_length, rotationVals_length]

theorem ankleYs_length (hand : Hand) (frames : List PoseFrame) (bound : ℕ) :
    (ankleYs hand frames bound).length = bound := by
  simp [ankleYs]

/-! Anchors computed by the events stage stay inside their search windows. -/

theorem flexMinIdx_lt (armAng : List Joint → ℚ) (frames : List PoseFrame) (relIdx : ℕ)
    (h1 : 0 < relIdx) (h2 : relIdx ≤ frames.length) :
    flexMinIdx armAng frames relIdx < relIdx := by
  have hlen : ((flexionCurve armAng frames).take relIdx).length = relIdx := by
    simp [flexionCurve_length]; omega
  have hne : (flexionCurve armAng frames).take relIdx ≠ [] := by
    intro hc; rw [hc] at hlen; simp at hlen; omega
  have := argminIdx_lt _ hne
  rw [hlen] at this
  exact this

theorem posVelCands_mem_lt (curve : List ℚ) (i : ℕ) (h : i ∈ posVelCands curve) :
    i < (npGradient curve).length := by
  unfold posVelCands at h
  have := List.of_mem_filter h
  have hm := List.mem_filter.mp h
  simpa using List.mem_range.mp hm.1

theorem signalOnsetIdx_lt (curve : List ℚ) (flexIdx n : ℕ)
    (hf : flexIdx < n) (hg : (npGradient curve).length ≤ n) :
    signalOnsetIdx curve flexIdx < n := by
  unfold signalOnsetIdx
  split
  · exact hf
  · next hne =>
    refine medianInt_lt _ _ (by simpa [List.isEmpty_iff] using hne) ?_
    intro x hx
    exact lt_of_lt_of_le (posVelCands_mem_lt curve x hx) hg

theorem uahIndex_lt (armAng : List Joint → ℚ) (hand : Hand) (frames : List PoseFrame)
    (relIdx : ℕ) (h1 : 3 ≤ relIdx) (h2 : relIdx ≤ frames.length) :
    uahIndex armAng hand frames relIdx < relIdx := by
  simp only [uahIndex]
  have hflex : flexMinIdx armAng frames relIdx < relIdx :=
    flexMinIdx_lt armAng frames relIdx (by omega) h2
  have helevlen : ((elevationCurve hand frames).take relIdx).length = relIdx := by
    simp [elevationCurve_length]; omega
  have hrotlen : ((rotationCurve hand frames).take relIdx).length = relIdx := by
    simp [rotationCurve_length]; omega
  have helev : signalOnsetIdx ((elevationCurve hand frames).take relIdx)
      (flexMinIdx armAng frames relIdx) < relIdx := by
    refine signalOnsetIdx_lt _ _ _ hflex ?_
    rw [npGradient_length _ (by omega), helevlen]
  have hrot : signalOnsetIdx ((rotationCurve hand frames).take relIdx)
      (flexMinIdx armAng frames relIdx) < relIdx := by
    refine signalOnsetIdx_lt _ _ _ hflex ?_
    rw [npGradient_length _ (by omega), hrotlen]
  have hmed : medianInt [flexMinIdx armAng frames relIdx,
      signalOnsetIdx ((elevationCurve hand frames).take relIdx) (flexMinIdx armAng frames relIdx),
      signalOnsetIdx ((rotationCurve hand frames).take relIdx)
        (flexMinIdx armAng frames relIdx)] < relIdx := by
    refine medianInt_lt _ _ (by simp) ?_
    intro x hx
    simp only [List.mem_cons, List.not_mem_nil, or_false] at hx
    rcases hx with h | h | h <;> subst h <;> assumption
  omega

theorem detectUah_some_lt (armAng : List Joint → ℚ) (hand : Hand)
    (frames : List PoseFrame) (relIdx : ℕ) (u : EventFrame)
    (h2 : relIdx ≤ frames.length)
    (h : detectUah armAng hand frames relIdx = some u) : u.frame < relIdx := by
  unfold detectUah at h
  split at h
  · simp at h
  · next h3 =>
    have := uahIndex_lt armAng hand frames relIdx (by omega) h2
    cases h
    simpa using this

theorem detectUah_none_le (armAng : List Joint → ℚ) (hand : Hand)
    (frames : List PoseFrame) (relIdx : ℕ)
    (h : detectUah armAng hand frames relIdx = none) : relIdx ≤ 2 := by
  unfold detectUah at h
  split at h
  · assumption
  · simp at h

theorem detectFfc_some_lt (hand : Hand) (frames : List PoseFrame) (relIdx : ℕ)
    (f : EventFrame) (h : detectFfc hand frames relIdx = some f) : f.frame < relIdx := by
  unfold detectFfc at h
  split at h
  · simp at h
  · next h0 =>
    have hlen : (smooth3 (ankleYs hand frames relIdx)).length = relIdx := by
      simp [smooth3_length, ankleYs_length]
    have hne : smooth3 (ankleYs hand frames relIdx) ≠ [] := by
      intro hc; rw [hc] at hlen; simp at hlen; omega
    have := argminIdx_lt _ hne
    rw [hlen] at this
    cases h
    simpa using this

theorem detectBfc_some_lt (hand : Hand) (frames : List PoseFrame) (ffcIdx : ℕ)
    (b : EventFrame) (h : detectBfc hand frames ffcIdx = some b) : b.frame < ffcIdx := by
  unfold detectBfc at h
  split at h
  · simp at h
  · next h0 =>
    have hlen : (smooth3 (ankleYs hand frames ffcIdx)).length = ffcIdx := by
      simp [smooth3_length, ankleYs_length]
    have hne : smooth3 (ankleYs hand frames ffcIdx) ≠ [] := by
      intro hc; rw [hc] at hlen; simp at hlen; omega
    have := argminIdx_lt _ hne
    rw [hlen] at this
    cases h
    simpa using this

theorem workingFrames_length_ge (hand : Hand) (pf : List PoseFrame)
    (h : 5 ≤ pf.length) : 5 ≤ (workingFrames hand pf).length := by
  simp only [workingFrames]
  split
  · assumption
  · assumption

theorem relOf_lt (armAng : List Joint → ℚ) (hand : Hand) (pf : List PoseFrame)
    (h : 5 ≤ pf.length) :
    (relOf armAng hand pf).frame < (workingFrames hand pf).length := by
  have h5 := workingFrames_length_ge hand pf h
  have hne : releaseCurve armAng (workingFrames hand pf) ≠ [] := by
    intro hc
    have := releaseCurve_length armAng (workingFrames hand pf)
    rw [hc] at this; simp at this; omega
  have := argmaxIdx_lt _ hne
  rw [releaseCurve_length] at this
  simpa [relOf, detectRelease] using this

theorem uahOf_lt (armAng : List Joint → ℚ) (hand : Hand) (pf : List PoseFrame)
    (h5 : 5 ≤ pf.length) (h1 : 1 ≤ (relOf armAng hand pf).frame) :
    (uahOf armAng hand pf).frame < (relOf armAng hand pf).frame := by
  unfold uahOf
  cases hu : detectUah armAng hand (workingFrames hand pf) (relOf armAng hand pf).frame with
  | none =>
    simp only [hu, Option.getD_none]
    split <;> simp <;> omega
  | some u0 =>
    have hrel := relOf_lt armAng hand pf h5
    have := detectUah_some_lt armAng hand (workingFrames hand pf)
      (relOf armAng hand pf).frame u0 (by omega) hu
    simp only [hu, Option.getD_some]
    split <;> simp <;> omega

/-- Everything the events stage guarantees about the four emitted anchors:
whenever it emits `ok`, Release is at least frame 1 and inside the working
list, FFC and UAH are strictly before Release, BFC is at or before FFC, and
strictly before it as soon as FFC is not frame 0. -/
theorem runEvents_ok_facts (armAng : List Joint → ℚ) (hand : Hand) (pf : List PoseFrame)
    (b f u r : EventFrame) (h : runEvents armAng hand pf = .ok b f u r) :
    1 ≤ r.frame ∧ r.frame < (workingFrames hand pf).length ∧
    f.frame < r.frame ∧ u.frame < r.frame ∧
    b.frame ≤ f.frame ∧ (1 ≤ f.frame → b.frame < f.frame) := by
  unfold runEvents at h
  split at h
  · simp at h
  · next hlen =>
    have h5 : 5 ≤ pf.length := by omega
    cases hffc : detectFfc hand (workingFrames hand pf) (relOf armAng hand pf).frame with
    | none => rw [hffc] at h; simp at h
    | some ffc =>
      rw [hffc] at h
      cases h
      have hfr := detectFfc_some_lt hand (workingFrames hand pf)
        (relOf armAng hand pf).frame f hffc
      have hrel1 : 1 ≤ (relOf armAng hand pf).frame := by omega
      refine ⟨hrel1, relOf_lt armAng hand pf h5, hfr, uahOf_lt armAng hand pf h5 hrel1, ?_, ?_⟩
      · cases hb : detectBfc hand (workingFrames hand pf) f.frame with
        | none => simp [hb]
        | some bb =>
          have := detectBfc_some_lt hand (workingFrames hand pf) f.frame bb hb
          simp [hb]; omega
      · intro hf1
        cases hb : detectBfc hand (workingFrames hand pf) f.frame with
        | none => simp [hb]; omega
        | some bb =>
          have := detectBfc_some_lt hand (workingFrames hand pf) f.frame bb hb
          simp [hb]; omega

/-- Evaluation of the events stage on the five identical fully visible
frames: the smoothed angle curve `[67.5, 90, 90, 90, 67.5]` peaks first at
index 1 (Release); `detect_uah_c2` returns `None` (`rel_idx ≤ 2`) so UAH
falls back to frame 0 at confidence 10; FFC is the argmin of the
single-sample ankle curve (frame 0, confidence 100); `detect_bfc` returns
`None` (`ffc_idx ≤ 1`) so BFC falls back to frame 0 at confidence 10. -/
theorem runEvents_framesAllValid :
    runEvents armAng90 Hand.right framesAllValid =
      .ok ⟨0, 10⟩ ⟨0, 100⟩ ⟨0, 10⟩ ⟨1, 100⟩ := by
  norm_num [runEvents, workingFrames, isValidFrame, framesAllValid, framePerp, lmPerp,
    baseJoint, armAng90, getJ, primaryIdx, detectFfc, detectBfc, detectRelease, detectUah,
    relOf, uahOf, releaseCurve, extOr0, smooth3, argmaxIdx, argmaxAux, argminIdx, argminAux,
    frameConf, clamp01, ankleYs, List.replicate, List.filter, List.range, List.range.loop,
    List.getD, List.set]

/-- Evaluation of the events stage on the six frames whose first frame is
filtered out: the working list is the five valid frames, so the emitted
Release is position 1 of the filtered list. -/
theorem runEvents_framesOneInvalid :
    runEvents armAng90 Hand.right framesOneInvalid =
      .ok ⟨0, 10⟩ ⟨0, 100⟩ ⟨0, 10⟩ ⟨1, 100⟩ := by
  norm_num [runEvents, workingFrames, isValidFrame, framesOneInvalid, framePerp, lmPerp,
    baseJoint, armAng90, getJ, primaryIdx, detectFfc, detectBfc, detectRelease, detectUah,
    relOf, uahOf, releaseCurve, extOr0, smooth3, argmaxIdx, argmaxAux, argminIdx, argminAux,
    frameConf, clamp01, ankleYs, List.replicate, List.filter, List.range, List.range.loop,
    List.getD, List.set]

/-- On the unfiltered six-frame list the smoothed angle curve is
`[22.5, 67.5, 90, 90, 90, 67.5]`, whose first maximum sits at original
index 2, not 1. -/
theorem detectRelease_framesOneInvalid :
    (detectRelease armAng90 framesOneInvalid).frame = 2 := by
  norm_num [framesOneInvalid, framePerp, lmPerp, baseJoint, armAng90, detectRelease,
    releaseCurve, extOr0, smooth3, argmaxIdx, argmaxAux, frameConf, clamp01,
    List.replicate, List.range, List.range.loop, List.getD, List.set]

/-- On the five-frame run Release is frame 1, so `detect_uah_c2` bails out
on the working list. -/
theorem detectUah_framesAllValid_none :
    detectUah armAng90 Hand.right (workingFrames Hand.right framesAllValid) 1 = none := by
  norm_num [detectUah]

/-- C1 (counterexample): the events stage can emit all four anchors with the
claimed strict order `BFC < FFC < UAH < Release` violated.  On five
identical fully visible frames the smoothed external-elbow curve peaks at
index 1, so Release is frame 1; `detect_uah_c2` bails out (`rel_idx ≤ 2`)
and the fallback puts UAH at frame 0; FFC is the argmin of a single-sample
ankle curve, frame 0; `detect_bfc` bails out (`ffc_idx ≤ 1`) and its
fallback puts BFC at frame 0.  The emitted quadruple is
`BFC = FFC = UAH = 0 < Release = 1`, which breaks `BFC < FFC` and
`FFC < UAH`; the stage's only ordering correction (`uah > release`) never
fires. -/
theorem claim_C1_counterexample :
    ¬ anchorsOrdered (runEvents armAng90 Hand.right framesAllValid) := by
  rw [runEvents_framesAllValid]
  simp [anchorsOrdered]

/-- C1 (amended): what the events stage actually guarantees whenever it
emits all four anchors: `BFC ≤ FFC < Release` and `UAH < Release`, with
`BFC < FFC` strict as soon as FFC is not frame 0.  No relative order
between FFC and UAH is enforced. -/
theorem claim_C1_amended_ordering : ∀ (armAng : List Joint → ℚ) (hand : Hand)
    (pf : List PoseFrame) (b f u r : EventFrame),
    runEvents armAng hand pf = .ok b f u r →
    b.frame ≤ f.frame ∧ f.frame < r.frame ∧ u.frame < r.frame ∧
    (1 ≤ f.frame → b.frame < f.frame) := by
  intro armAng hand pf b f u r h
  obtain ⟨_, _, h3, h4, h5, h6⟩ := runEvents_ok_facts armAng hand pf b f u r h
  exact ⟨h5, h3, h4, h6⟩

/-- C1 (amended, witness): the amended ordering facts instantiated on the
five-frame run. -/
theorem claim_C1_amended_ordering_witness :
    EventFrame.frame ⟨0, (10 : ℚ)⟩ ≤ EventFrame.frame ⟨0, (100 : ℚ)⟩ ∧
    EventFrame.frame ⟨0, (100 : ℚ)⟩ < EventFrame.frame ⟨1, (100 : ℚ)⟩ ∧
    EventFrame.frame ⟨0, (10 : ℚ)⟩ < EventFrame.frame ⟨1, (100 : ℚ)⟩ ∧
    (1 ≤ EventFrame.frame ⟨0, (100 : ℚ)⟩ →
      EventFrame.frame ⟨0, (10 : ℚ)⟩ < EventFrame.frame ⟨0, (100 : ℚ)⟩) :=
  claim_C1_amended_ordering armAng90 Hand.right framesAllValid
    ⟨0, 10⟩ ⟨0, 100⟩ ⟨0, 10⟩ ⟨1, 100⟩ runEvents_framesAllValid

/-- C7: whenever the adaptive UAH detection on the working frame list finds
no candidate and the stage still emits all four anchors, the emitted UAH
anchor is the frame `Release.frame - 6` (`ℕ` subtraction realises the
claim's non-negative clamp) with confidence 10 percent.  The source's
fallback constant is 5, not 6, but `detect_uah_c2` returns `None` only when
`Release.frame ≤ 2`, where `max(0, rel - 5)` and `max(0, rel - 6)` both
clamp to 0, so the claim holds as stated. -/
theorem claim_C7_uah_fallback : ∀ (armAng : List Joint → ℚ) (hand : Hand)
    (pf : List PoseFrame) (b f u r : EventFrame),
    runEvents armAng hand pf = .ok b f u r →
    detectUah armAng hand (workingFrames hand pf) r.frame = none →
    u.frame = r.frame - 6 ∧ u.conf = 10 := by
  intro armAng hand pf b f u r h hnone
  unfold runEvents at h
  split at h
  · simp at h
  · next hlen =>
    cases hffc : detectFfc hand (workingFrames hand pf) (relOf armAng hand pf).frame with
    | none => rw [hffc] at h; simp at h
    | some ffc =>
      rw [hffc] at h
      cases h
      have hle2 := detectUah_none_le armAng hand (workingFrames hand pf) _ hnone
      have hfr := detectFfc_some_lt hand (workingFrames hand pf)
        (relOf armAng hand pf).frame f hffc
      simp only [uahOf]
      rw [hnone]
      simp only [Option.getD_none]
      split
      · next hcond =>
        have hc : (relOf armAng hand pf).frame < (relOf armAng hand pf).frame - 5 := hcond
        omega
      · refine ⟨?_, rfl⟩
        show (relOf armAng hand pf).frame - 5 = (relOf armAng hand pf).frame - 6
        omega

/-- C7 (witness): the UAH fallback equations instantiated on the five-frame
run, where Release is frame 1 and `detect_uah_c2` returns `None`. -/
theorem claim_C7_uah_fallback_witness :
    EventFrame.frame ⟨0, (10 : ℚ)⟩ = EventFrame.frame ⟨1, (100 : ℚ)⟩ - 6 ∧
    EventFrame.conf ⟨0, (10 : ℚ)⟩ = 10 :=
  claim_C7_uah_fallback armAng90 Hand.right framesAllValid
    ⟨0, 10⟩ ⟨0, 100⟩ ⟨0, 10⟩ ⟨1, 100⟩ runEvents_framesAllValid detectUah_framesAllValid_none

/-- C10: when at least 5 frames pass the per-frame arm-visibility filter,
all four detections run on the filtered subsequence, so every emitted
anchor frame index is a position within the filtered list; and on a
concrete six-frame input whose first frame is filtered out, the emitted
Release index (1, a position in the filtered list) differs from the
original-sequence index of the maximum of the smoothed external elbow
curve (2). -/
theorem claim_C10_filtered_indices :
    (∀ (armAng : List Joint → ℚ) (hand : Hand) (pf : List PoseFrame) (b f u r : EventFrame),
      5 ≤ (pf.filter (isValidFrame hand)).length →
      runEvents armAng hand pf = .ok b f u r →
      b.frame < (pf.filter (isValidFrame hand)).length ∧
      f.frame < (pf.filter (isValidFrame hand)).length ∧
      u.frame < (pf.filter (isValidFrame hand)).length ∧
      r.frame < (pf.filter (isValidFrame hand)).length) ∧
    emittedRelease (runEvents armAng90 Hand.right framesOneInvalid) = some 1 ∧
    (detectRelease armAng90 framesOneInvalid).frame = 2 := by
  refine ⟨?_, by rw [runEvents_framesOneInvalid]; rfl, detectRelease_framesOneInvalid⟩
  intro armAng hand pf b f u r hfl h
  have hw : workingFrames hand pf = pf.filter (isValidFrame hand) := by
    simp only [workingFrames]
    rw [if_pos hfl]
  obtain ⟨h1, h2, h3, h4, h5, h6⟩ := runEvents_ok_facts armAng hand pf b f u r h
  rw [hw] at h2
  exact ⟨by omega, by omega, by omega, h2⟩

/-- C10 (witness): the filtered-position bounds instantiated on the
six-frame run with one filtered-out frame. -/
theorem claim_C10_filtered_indices_witness :
    EventFrame.frame ⟨0, (10 : ℚ)⟩ < (framesOneInvalid.filter (isValidFrame Hand.right)).length ∧
    EventFrame.frame ⟨0, (100 : ℚ)⟩ < (framesOneInvalid.filter (isValidFrame Hand.right)).length ∧
    EventFrame.frame ⟨0, (10 : ℚ)⟩ < (framesOneInvalid.filter (isValidFrame Hand.right)).length ∧
    EventFrame.frame ⟨1, (100 : ℚ)⟩ < (framesOneInvalid.filter (isValidFrame Hand.right)).length :=
  claim_C10_filtered_indices.1 armAng90 Hand.right framesOneInvalid
    ⟨0, 10⟩ ⟨0, 100⟩ ⟨0, 10⟩ ⟨1, 100⟩
    (by norm_num [framesOneInvalid, framePerp, lmPerp, baseJoint, isValidFrame, getJ,
      primaryIdx, List.replicate, List.filter, List.getD, List.set])
    runEvents_framesOneInvalid

/-! Aggregator characterisation. -/

theorem aggAux_eq (ls : List RiskLevel) : ∀ acc : Overall, aggAux ls acc =
    if RiskLevel.high ∈ ls then .high
    else if RiskLevel.medium ∈ ls then .medium
    else acc := by
  induction ls with
  | nil => intro acc; simp [aggAux]
  | cons l ls ih =>
    intro acc
    cases l with
    | high => simp [aggAux]
    | medium => simp [aggAux, ih, ite_self]
    | low => simp [aggAux, ih]
    | skipped => simp [aggAux, ih]
    | unknown => simp [aggAux, ih]

theorem aggregateRisks_eq (ls : List RiskLevel) : aggregateRisks ls =
    if RiskLevel.high ∈ ls then .high
    else if RiskLevel.medium ∈ ls then .medium
    else .low :=
  aggAux_eq ls .low

/-- C2: the aggregated overall severity is HIGH iff some finding whose
level is neither SKIPPED nor UNKNOWN has level HIGH; otherwise MEDIUM iff
some such finding has level MEDIUM; otherwise LOW.  SKIPPED/UNKNOWN
findings never change the overall severity (filtering them out leaves the
aggregate unchanged) and remain verbatim in the breakdown list. -/
theorem claim_C2_aggregation (fs : List RawRisk) :
    ((mkRiskSummary fs).overall = .high ↔
      ∃ r ∈ fs, (r.level ≠ .skipped ∧ r.level ≠ .unknown) ∧ r.level = .high) ∧
    ((mkRiskSummary fs).overall = .medium ↔
      ((¬ ∃ r ∈ fs, r.level = .high) ∧
        ∃ r ∈ fs, (r.level ≠ .skipped ∧ r.level ≠ .unknown) ∧ r.level = .medium)) ∧
    ((mkRiskSummary fs).overall = .low ↔
      ((¬ ∃ r ∈ fs, r.level = .high) ∧ ¬ ∃ r ∈ fs, r.level = .medium)) ∧
    aggregateRisks ((fs.filter fun r =>
        decide (r.level ≠ .skipped) && decide (r.level ≠ .unknown)).map RawRisk.level) =
      aggregateRisks (fs.map RawRisk.level) ∧
    (mkRiskSummary fs).breakdown = fs := by
  have hover : (mkRiskSummary fs).overall = aggregateRisks (fs.map RawRisk.level) := rfl
  have hmemh : RiskLevel.high ∈ fs.map RawRisk.level ↔ ∃ r ∈ fs, r.level = .high := by
    simp [List.mem_map]
  have hmemm : RiskLevel.medium ∈ fs.map RawRisk.level ↔ ∃ r ∈ fs, r.level = .medium := by
    simp [List.mem_map]
  refine ⟨?_, ?_, ?_, ?_, rfl⟩
  · rw [hover, aggregateRisks_eq]
    by_cases h1 : RiskLevel.high ∈ fs.map RawRisk.level
    · obtain ⟨r, hr, hlev⟩ := hmemh.mp h1
      rw [if_pos h1]
      exact iff_of_true rfl ⟨r, hr, ⟨by simp [hlev], by simp [hlev]⟩, hlev⟩
    · have h2 : ¬ ∃ r ∈ fs, (r.level ≠ .skipped ∧ r.level ≠ .unknown) ∧ r.level = .high := by
        rintro ⟨r, hr, _, hlev⟩
        exact h1 (hmemh.mpr ⟨r, hr, hlev⟩)
      simp only [h1, if_false]
      refine iff_of_false ?_ h2
      split <;> simp
  · rw [hover, aggregateRisks_eq]
    by_cases h1 : RiskLevel.high ∈ fs.map RawRisk.level
    · simp only [h1, if_true]
      refine iff_of_false (by simp) ?_
      rintro ⟨hno, _⟩
      exact hno (hmemh.mp h1)
    · by_cases h2 : RiskLevel.medium ∈ fs.map RawRisk.level
      · obtain ⟨r, hr, hlev⟩ := hmemm.mp h2
        rw [if_neg h1, if_pos h2]
        exact iff_of_true rfl
          ⟨fun hc => h1 (hmemh.mpr hc), r, hr, ⟨by simp [hlev], by simp [hlev]⟩, hlev⟩
      · simp only [h1, h2, if_false]
        refine iff_of_false (by simp) ?_
        rintro ⟨_, r, hr, _, hlev⟩
        exact h2 (hmemm.mpr ⟨r, hr, hlev⟩)
  · rw [hover, aggregateRisks_eq]
    by_cases h1 : RiskLevel.high ∈ fs.map RawRisk.level
    · simp only [h1, if_true]
      refine iff_of_false (by simp) ?_
      rintro ⟨hno, _⟩
      exact hno (hmemh.mp h1)
    · by_cases h2 : RiskLevel.medium ∈ fs.map RawRisk.level
      · simp only [h1, h2, if_true, if_false]
        refine iff_of_false (by simp) ?_
        rintro ⟨_, hno⟩
        exact hno (hmemm.mp h2)
      · rw [if_neg h1, if_neg h2]
        exact iff_of_true rfl
          ⟨fun hc => h1 (hmemh.mpr hc), fun hc => h2 (hmemm.mpr hc)⟩
  · rw [aggregateRisks_eq, aggregateRisks_eq]
    have e1 : RiskLevel.high ∈ ((fs.filter fun r =>
        decide (r.level ≠ .skipped) && decide (r.level ≠ .unknown)).map RawRisk.level) ↔
        RiskLevel.high ∈ fs.map RawRisk.level := by
      simp only [List.mem_map, List.mem_filter, Bool.and_eq_true, decide_eq_true_eq]
      constructor
      · rintro ⟨r, ⟨hr, _⟩, hlev⟩
        exact ⟨r, hr, hlev⟩
      · rintro ⟨r, hr, hlev⟩
        exact ⟨r, ⟨hr, by simp [hlev], by simp [hlev]⟩, hlev⟩
    have e2 : RiskLevel.medium ∈ ((fs.filter fun r =>
        decide (r.level ≠ .skipped) && decide (r.level ≠ .unknown)).map RawRisk.level) ↔
        RiskLevel.medium ∈ fs.map RawRisk.level := by
      simp only [List.mem_map, List.mem_filter, Bool.and_eq_true, decide_eq_true_eq]
      constructor
      · rintro ⟨r, ⟨hr, _⟩, hlev⟩
        exact ⟨r, hr, hlev⟩
      · rintro ⟨r, hr, hlev⟩
        exact ⟨r, ⟨hr, by simp [hlev], by simp [hlev]⟩, hlev⟩
    simp only [e1, e2]

/-! The lateral-trunk-lean downgrade. -/

theorem ltlSupporting_false (ffb hsm : Option RawRisk)
    (h1 : ∀ r, ffb = some r → r.level ≠ .medium ∧ r.level ≠ .high)
    (h2 : ∀ r, hsm = some r → r.level ≠ .medium ∧ r.level ≠ .high) :
    ltlSupporting ffb hsm = false := by
  unfold ltlSupporting
  cases ffb with
  | none =>
    cases hsm with
    | none => rfl
    | some r =>
      obtain ⟨hm, hh⟩ := h2 r rfl
      simp [hm, hh]
  | some r =>
    obtain ⟨hm, hh⟩ := h1 r rfl
    cases hsm with
    | none => simp [hm, hh]
    | some s =>
      obtain ⟨hm2, hh2⟩ := h2 s rfl
      simp [hm, hh, hm2, hh2]

theorem mem_optPart (x : Option RawRisk) (r : RawRisk) (h : r ∈ optPart x) :
    x = some r := by
  cases x with
  | none => simp [optPart] at h
  | some s =>
    simp only [optPart, formatRisk, List.mem_singleton] at h
    rw [h]

theorem mem_ltlPart (ffb hsm ltl : Option RawRisk) (r : RawRisk)
    (h : r ∈ ltlPart ffb hsm ltl) :
    ∃ l, ltl = some l ∧ ((ltlSupporting ffb hsm = true ∧ r = l) ∨
      (ltlSupporting ffb hsm = false ∧ r = ⟨l.id, .low, l.guardrails⟩)) := by
  cases ltl with
  | none => simp [ltlPart] at h
  | some l =>
    refine ⟨l, rfl, ?_⟩
    simp only [ltlPart] at h
    split at h
    · next hc =>
      simp only [formatRisk, List.mem_singleton] at h
      exact Or.inl ⟨hc, h⟩
    · next hc =>
      simp only [formatRisk, List.mem_singleton] at h
      exact Or.inr ⟨Bool.eq_false_iff.mpr hc, h⟩

/-- C5: if neither front-foot braking, nor hip-shoulder mismatch, nor
front-knee collapse reports MEDIUM or HIGH, then the lateral-trunk-lean
finding enters the breakdown downgraded to LOW and the aggregated overall
severity is LOW — lateral trunk lean alone can never raise the overall
severity above LOW.  (The source's `supporting` check only consults FFB and
HSM, which is weaker than the hypothesis, so the claim follows.) -/
theorem claim_C5_ltl_downgrade (ffb hsm ltl fnc : Option RawRisk)
    (h1 : ∀ r, ffb = some r → r.level ≠ .medium ∧ r.level ≠ .high)
    (h2 : ∀ r, hsm = some r → r.level ≠ .medium ∧ r.level ≠ .high)
    (h3 : ∀ r, fnc = some r → r.level ≠ .medium ∧ r.level ≠ .high) :
    (∀ l, ltl = some l →
      (⟨l.id, .low, l.guardrails⟩ : RawRisk) ∈ buildFormatted ffb hsm ltl fnc) ∧
    (mkRiskSummary (buildFormatted ffb hsm ltl fnc)).overall = .low := by
  have hsup := ltlSupporting_false ffb hsm h1 h2
  have hlev : ∀ r ∈ buildFormatted ffb hsm ltl fnc,
      r.level ≠ .high ∧ r.level ≠ .medium := by
    intro r hr
    unfold buildFormatted at hr
    simp only [List.mem_append] at hr
    rcases hr with ((hr | hr) | hr) | hr
    · obtain ⟨hm, hh⟩ := h1 r (mem_optPart _ _ hr)
      exact ⟨hh, hm⟩
    · obtain ⟨hm, hh⟩ := h2 r (mem_optPart _ _ hr)
      exact ⟨hh, hm⟩
    · obtain ⟨l, hl, hcase⟩ := mem_ltlPart _ _ _ _ hr
      rcases hcase with ⟨hc, rfl⟩ | ⟨_, rfl⟩
      · rw [hsup] at hc
        cases hc
      · exact ⟨by simp, by simp⟩
    · obtain ⟨hm, hh⟩ := h3 r (mem_optPart _ _ hr)
      exact ⟨hh, hm⟩
  constructor
  · intro l hl
    subst hl
    unfold buildFormatted
    refine List.mem_append.mpr (Or.inl (List.mem_append.mpr (Or.inr ?_)))
    simp [ltlPart, hsup, formatRisk]
  · show aggregateRisks _ = .low
    rw [aggregateRisks_eq]
    have hnh : RiskLevel.high ∉ (buildFormatted ffb hsm ltl fnc).map RawRisk.level := by
      intro hc
      obtain ⟨r, hr, hlev2⟩ := List.mem_map.mp hc
      exact (hlev r hr).1 hlev2
    have hnm : RiskLevel.medium ∉ (buildFormatted ffb hsm ltl fnc).map RawRisk.level := by
      intro hc
      obtain ⟨r, hr, hlev2⟩ := List.mem_map.mp hc
      exact (hlev r hr).2 hlev2
    simp [hnh, hnm]

/-- C5 (witness): with braking absent, mismatch UNKNOWN and knee collapse
LOW, a HIGH lateral-trunk-lean result is downgraded to LOW and the overall
severity stays LOW. -/
theorem claim_C5_ltl_downgrade_witness :
    (⟨.LATERAL_TRUNK_LEAN, .low, []⟩ : RawRisk) ∈
      buildFormatted none (some ⟨.HIP_SHOULDER_MISMATCH, .unknown, []⟩)
        (some ⟨.LATERAL_TRUNK_LEAN, .high, []⟩) (some ⟨.FRONT_KNEE_COLLAPSE, .low, []⟩) ∧
    (mkRiskSummary (buildFormatted none (some ⟨.HIP_SHOULDER_MISMATCH, .unknown, []⟩)
        (some ⟨.LATERAL_TRUNK_LEAN, .high, []⟩)
        (some ⟨.FRONT_KNEE_COLLAPSE, .low, []⟩))).overall = .low := by
  have h := claim_C5_ltl_downgrade none (some ⟨.HIP_SHOULDER_MISMATCH, .unknown, []⟩)
    (some ⟨.LATERAL_TRUNK_LEAN, .high, []⟩) (some ⟨.FRONT_KNEE_COLLAPSE, .low, []⟩)
    (by rintro r ⟨⟩) (by rintro r ⟨rfl⟩; exact ⟨by simp, by simp⟩)
    (by rintro r ⟨rfl⟩; exact ⟨by simp, by simp⟩)
  exact ⟨h.1 ⟨.LATERAL_TRUNK_LEAN, .high, []⟩ rfl, h.2⟩

/-! Calculator identities and gating. -/

theorem fncGrade_ne_skipped (a d : ℚ) : fncGrade a d ≠ .skipped := by
  unfold fncGrade
  split
  · simp
  · split
    · simp
    · split <;> simp

theorem hsmCompute_some_id (hip sh : List ℚ) (bfc ffc : ℕ) (dt I : ℚ) (r : RawRisk)
    (h : hsmCompute hip sh bfc ffc dt I = some r) : r.id = .HIP_SHOULDER_MISMATCH := by
  simp only [hsmCompute] at h
  split at h
  · cases h; rfl
  · split at h
    · simp at h
    · cases h; rfl

theorem ltlCompute_some_id (trunkTheta : List Joint → ℚ) (gsmoothUnwrap : List ℚ → List ℚ)
    (frames : List PoseFrame) (ffc uah : ℕ) (I : ℚ) (r : RawRisk)
    (h : ltlCompute trunkTheta gsmoothUnwrap frames ffc uah I = some r) :
    r.id = .LATERAL_TRUNK_LEAN := by
  simp only [ltlCompute] at h
  split at h
  · simp at h
  · split at h
    · simp at h
    · split at h
      · simp at h
      · split at h
        · simp at h
        · cases h; rfl

theorem ffbCompute_some_id (frames : List PoseFrame) (ffc release : ℕ) (fps : ℚ)
    (r : RawRisk) (h : ffbCompute frames ffc release fps = some r) :
    r.id = .FRONT_FOOT_BRAKING := by
  simp only [ffbCompute] at h
  split at h
  · simp at h
  · split at h
    · simp at h
    · cases h; rfl

theorem fncCompute_some_id (kneeAng : List Joint → ℚ) (frames : List PoseFrame)
    (ffc release : ℕ) (r : RawRisk) (h : fncCompute kneeAng frames ffc release = some r) :
    r.id = .FRONT_KNEE_COLLAPSE := by
  simp only [fncCompute] at h
  split at h
  · cases h; rfl
  · split at h
    · cases h; rfl
    · split at h
      · cases h; rfl
      · cases h; rfl

theorem buildFormatted_mem_id (ffb hsm ltl fnc : Option RawRisk) (r : RawRisk)
    (hr : r ∈ buildFormatted ffb hsm ltl fnc) :
    (∃ s, ffb = some s ∧ r.id = s.id) ∨ (∃ s, hsm = some s ∧ r.id = s.id) ∨
    (∃ s, ltl = some s ∧ r.id = s.id) ∨ (∃ s, fnc = some s ∧ r.id = s.id) := by
  unfold buildFormatted at hr
  simp only [List.mem_append] at hr
  rcases hr with ((hr | hr) | hr) | hr
  · exact Or.inl ⟨r, mem_optPart _ _ hr, rfl⟩
  · exact Or.inr (Or.inl ⟨r, mem_optPart _ _ hr, rfl⟩)
  · obtain ⟨l, hl, hcase⟩ := mem_ltlPart _ _ _ _ hr
    refine Or.inr (Or.inr (Or.inl ⟨l, hl, ?_⟩))
    rcases hcase with ⟨_, rfl⟩ | ⟨_, rfl⟩
    · rfl
    · rfl
  · exact Or.inr (Or.inr (Or.inr ⟨r, mem_optPart _ _ hr, rfl⟩))

/-- C3 (counterexample): on eight frames carrying no landmarks, the
front-foot-braking signal-quality gate fails (zero usable samples, fewer
than the 3 required), yet no front-foot-braking finding — SKIPPED or
otherwise — appears in the assembled risk breakdown, and the same happens
to lateral trunk lean; the breakdown holds only the UNKNOWN
hip-shoulder-mismatch entry and the SKIPPED knee-collapse entry. -/
theorem claim_C3_counterexample :
    (ffbXs framesNone 0 3).length < 3 ∧
    ffbCompute framesNone 0 3 30 = none ∧
    ltlCompute trunkTheta0 gsmooth0 framesNone 0 3 (7 / 10) = none ∧
    biomechRisk kneeAng0 trunkTheta0 gsmooth0 pairAngle0 framesNone 0 0 3 3 30 =
      ⟨.low, [⟨.HIP_SHOULDER_MISMATCH, .unknown, []⟩,
        ⟨.FRONT_KNEE_COLLAPSE, .skipped, ["signal_quality_low"]⟩]⟩ := by
  refine ⟨?_, ?_, ?_, ?_⟩ <;>
    · norm_num [biomechRisk, ffbCompute, ffbXs, hipCenterX, signalQuality, hsmCompute,
        pairAngleSeries, pairSeriesStep, ltlCompute, ltlWindow, fncCompute, fncSamples,
        buildFormatted, optPart, ltlPart, formatRisk, ltlSupporting, mkRiskSummary,
        aggregateRisks, aggAux, framesNone, kneeAng0, trunkTheta0, gsmooth0, pairAngle0,
        getJ, List.replicate, List.range', List.getD]
      try decide

/-- C3 (amended): only the front-knee-collapse calculator returns an
explicit SKIPPED finding (with a nonempty guardrail list) when a gate
fails, and it always returns a finding.  Front-foot braking returns no
finding at all when its signal-quality gate fails (too few valid samples
or low signal quality), lateral trunk lean returns no finding when its
gate fails (window shorter than 3 or a missing frame in the window), and
the stage then assembles the breakdown without any entry of that
calculator.  Hip-shoulder mismatch returns an UNKNOWN (not SKIPPED)
finding when its event-window gate fails. -/
theorem claim_C3_amended_gating :
    (∀ (kneeAng : List Joint → ℚ) (frames : List PoseFrame) (ffc release : ℕ),
      (fncCompute kneeAng frames ffc release).isSome = true ∧
      (∀ r, fncCompute kneeAng frames ffc release = some r →
        r.level = .skipped → r.guardrails ≠ [])) ∧
    (∀ (frames : List PoseFrame) (ffc release : ℕ) (fps : ℚ),
      ((ffbXs frames ffc release).length < 3 ∨
        signalQuality (ffbXs frames ffc release) < 1 / 2) →
      ffbCompute frames ffc release fps = none) ∧
    (∀ (trunkTheta : List Joint → ℚ) (gsmoothUnwrap : List ℚ → List ℚ)
      (frames : List PoseFrame) (ffc uah : ℕ) (I : ℚ),
      ((uah : ℤ) - (ffc : ℤ) < 3 ∨ (ltlWindow frames ffc uah).any Option.isNone = true) →
      ltlCompute trunkTheta gsmoothUnwrap frames ffc uah I = none) ∧
    (∀ (hip sh : List ℚ) (bfc ffc : ℕ) (dt I : ℚ), ffc ≤ bfc + 2 →
      hsmCompute hip sh bfc ffc dt I = some ⟨.HIP_SHOULDER_MISMATCH, .unknown, []⟩) ∧
    (∀ (kneeAng trunkTheta : List Joint → ℚ) (gsmoothUnwrap : List ℚ → List ℚ)
      (pairAngle : ℚ → ℚ → ℚ) (frames : List PoseFrame) (bfc ffc uah release : ℕ) (fps : ℚ),
      ffbCompute frames ffc release fps = none →
      ∀ r ∈ (biomechRisk kneeAng trunkTheta gsmoothUnwrap pairAngle frames bfc ffc uah
        release fps).breakdown, r.id ≠ .FRONT_FOOT_BRAKING) ∧
    (∀ (kneeAng trunkTheta : List Joint → ℚ) (gsmoothUnwrap : List ℚ → List ℚ)
      (pairAngle : ℚ → ℚ → ℚ) (frames : List PoseFrame) (bfc ffc uah release : ℕ) (fps : ℚ),
      ltlCompute trunkTheta gsmoothUnwrap frames ffc uah (7 / 10) = none →
      ∀ r ∈ (biomechRisk kneeAng trunkTheta gsmoothUnwrap pairAngle frames bfc ffc uah
        release fps).breakdown, r.id ≠ .LATERAL_TRUNK_LEAN) := by
  refine ⟨?_, ?_, ?_, ?_, ?_, ?_⟩
  · intro kneeAng frames ffc release
    constructor
    · simp only [fncCompute]
      split
      · rfl
      · split
        · rfl
        · split
          · rfl
          · rfl
    · intro r hr hskip
      simp only [fncCompute] at hr
      split at hr
      · cases hr; simp
      · split at hr
        · cases hr; simp
        · split at hr
          · cases hr; simp
          · cases hr
            exact absurd hskip (fncGrade_ne_skipped _ _)
  · intro frames ffc release fps h
    simp only [ffbCompute]
    rcases h with h | h
    · rw [if_pos h]
    · by_cases h3 : (ffbXs frames ffc release).length < 3
      · rw [if_pos h3]
      · rw [if_neg h3, if_pos h]
  · intro trunkTheta gsmoothUnwrap frames ffc uah I h
    simp only [ltlCompute]
    rcases h with h | h
    · rw [if_pos h]
    · by_cases h3 : (uah : ℤ) - (ffc : ℤ) < 3
      · rw [if_pos h3]
      · rw [if_neg h3, if_pos h]
  · intro hip sh bfc ffc dt I h
    simp only [hsmCompute]
    rw [if_pos h]
  · intro kneeAng trunkTheta gsmoothUnwrap pairAngle frames bfc ffc uah release fps hnone
    intro r hr
    have hb : r ∈ buildFormatted (ffbCompute frames ffc release fps)
        (hsmCompute (pairAngleSeries pairAngle 23 24 frames bfc ffc)
          (pairAngleSeries pairAngle 11 12 frames bfc ffc) bfc ffc (1 / fps) (7 / 10))
        (ltlCompute trunkTheta gsmoothUnwrap frames ffc uah (7 / 10))
        (fncCompute kneeAng frames ffc release) := hr
    rcases buildFormatted_mem_id _ _ _ _ r hb with ⟨s, hs, hid⟩ | ⟨s, hs, hid⟩ |
      ⟨s, hs, hid⟩ | ⟨s, hs, hid⟩
    · rw [hnone] at hs; cases hs
    · rw [hid, hsmCompute_some_id _ _ _ _ _ _ s hs]; simp
    · rw [hid, ltlCompute_some_id _ _ _ _ _ _ s hs]; simp
    · rw [hid, fncCompute_some_id _ _ _ _ s hs]; simp
  · intro kneeAng trunkTheta gsmoothUnwrap pairAngle frames bfc ffc uah release fps hnone
    intro r hr
    have hb : r ∈ buildFormatted (ffbCompute frames ffc release fps)
        (hsmCompute (pairAngleSeries pairAngle 23 24 frames bfc ffc)
          (pairAngleSeries pairAngle 11 12 frames bfc ffc) bfc ffc (1 / fps) (7 / 10))
        (ltlCompute trunkTheta gsmoothUnwrap frames ffc uah (7 / 10))
        (fncCompute kneeAng frames ffc release) := hr
    rcases buildFormatted_mem_id _ _ _ _ r hb with ⟨s, hs, hid⟩ | ⟨s, hs, hid⟩ |
      ⟨s, hs, hid⟩ | ⟨s, hs, hid⟩
    · rw [hid, ffbCompute_some_id _ _ _ _ s hs]; simp
    · rw [hid, hsmCompute_some_id _ _ _ _ _ _ s hs]; simp
    · rw [hnone] at hs; cases hs
    · rw [hid, fncCompute_some_id _ _ _ _ s hs]; simp

/-- C3 (amended, witness): the gating facts instantiated on the
no-landmarks input: knee collapse still yields a finding, braking yields
none under its failed gate, trunk lean yields none under its failed gate,
and mismatch yields the UNKNOWN finding under its event-window gate. -/
theorem claim_C3_amended_gating_witness :
    (fncCompute kneeAng0 framesNone 0 3).isSome = true ∧
    ffbCompute framesNone 0 3 30 = none ∧
    ltlCompute trunkTheta0 gsmooth0 framesNone 0 3 (7 / 10) = none ∧
    hsmCompute [0] [0] 0 0 (1 / 30) (7 / 10) =
      some ⟨.HIP_SHOULDER_MISMATCH, .unknown, []⟩ := by
  refine ⟨(claim_C3_amended_gating.1 kneeAng0 framesNone 0 3).1,
    claim_C3_amended_gating.2.1 framesNone 0 3 30 (Or.inl ?_),
    claim_C3_amended_gating.2.2.1 trunkTheta0 gsmooth0 framesNone 0 3 (7 / 10) (Or.inr ?_),
    claim_C3_amended_gating.2.2.2.1 [0] [0] 0 0 (1 / 30) (7 / 10) (by norm_num)⟩
  · norm_num [ffbXs, framesNone, List.replicate, List.range', List.getD]
  · norm_num [ltlWindow, framesNone, List.replicate, List.range', List.getD]

/-! In-place interpolation facts. -/

theorem interpStep_getD_ne (hand : Hand) (s e : ℕ) (frames : List PoseFrame)
    (idx i : ℕ) (h : idx ≠ i) :
    (interpStep hand s e frames idx).getD i default = frames.getD i default := by
  simp only [interpStep]
  split
  · simp [List.getD_eq_getElem?_getD, List.getElem?_set_ne h]
  · rfl

theorem foldl_interpStep_getD (hand : Hand) (s e : ℕ) (i : ℕ) :
    ∀ (L : List ℕ) (frames : List PoseFrame), (∀ idx ∈ L, idx ≠ i) →
    (L.foldl (interpStep hand s e) frames).getD i default = frames.getD i default := by
  intro L
  induction L with
  | nil => intro frames _; rfl
  | cons idx rest ih =>
    intro frames hL
    rw [List.foldl_cons, ih _ fun j hj => hL j (List.mem_cons_of_mem _ hj),
      interpStep_getD_ne hand s e frames idx i (hL idx (List.mem_cons_self _ _))]

theorem mem_missingIdxs (frames : List PoseFrame) (s e i : ℕ)
    (h : i ∈ missingIdxs frames s e) :
    s ≤ i ∧ i ≤ e ∧ ((frames.getD i default).landmarks).isNone = true := by
  unfold missingIdxs at h
  obtain ⟨hr, hp⟩ := List.mem_filter.mp h
  obtain ⟨h1, h2⟩ := List.mem_range'_1.mp hr
  refine ⟨h1, by omega, by simpa using hp⟩

/-- C8 (counterexample): the Biomech Extractor does mutate the pose
stage's output.  On five frames whose middle frame has no landmarks, with
the UAH→Release window covering it, the frame list after the stage differs
from the one the pose/occlusion stages produced: frame 2 now carries
interpolated landmarks at confidence 1. -/
theorem claim_C8_counterexample :
    biomechFramesAfter Hand.right framesGap 1 3 ≠ framesGap := by
  norm_num [biomechFramesAfter, interpolateArmJoints, missingIdxs, interpStep,
    scanPrev, scanNext, scanNextAux, interpFrameLm, interpJoint, getJ, primaryIdx,
    framesGap, framePerp, lmPerp, baseJoint, List.range', List.replicate, List.getD,
    List.set]

/-- C8 (amended): the Biomech Extractor mutates the pose-frame sequence in
place, but only at frames of the UAH→Release window whose landmarks were
missing: when no frame of the window is missing the list is returned
unchanged, and every frame outside the window, as well as every frame that
had landmarks, is left untouched. -/
theorem claim_C8_amended_mutation : ∀ (hand : Hand) (frames : List PoseFrame) (s e : ℕ),
    ((missingIdxs frames s e).isEmpty = true → biomechFramesAfter hand frames s e = frames) ∧
    (∀ i, i < s ∨ e < i →
      (biomechFramesAfter hand frames s e).getD i default = frames.getD i default) ∧
    (∀ i, ((frames.getD i default).landmarks).isSome = true →
      (biomechFramesAfter hand frames s e).getD i default = frames.getD i default) := by
  intro hand frames s e
  refine ⟨?_, ?_, ?_⟩
  · intro hempty
    unfold biomechFramesAfter interpolateArmJoints
    simp only [hempty, if_true]
  · intro i hi
    unfold biomechFramesAfter interpolateArmJoints
    simp only []
    split
    · rfl
    · split
      · rfl
      · refine foldl_interpStep_getD hand s e i _ frames ?_
        intro idx hidx
        obtain ⟨h1, h2, _⟩ := mem_missingIdxs frames s e idx hidx
        omega
  · intro i hi
    unfold biomechFramesAfter interpolateArmJoints
    simp only []
    split
    · rfl
    · split
      · rfl
      · refine foldl_interpStep_getD hand s e i _ frames ?_
        intro idx hidx
        obtain ⟨_, _, hnone⟩ := mem_missingIdxs frames s e idx hidx
        intro hc
        rw [hc] at hnone
        rw [Option.isNone_iff_eq_none] at hnone
        rw [hnone] at hi
        cases hi

/-- C8 (amended, witness): on the five-frame gap input with window 1..3,
the frames outside the window and the frames that had landmarks are
unchanged, and on the fully visible five-frame input the stage leaves the
whole list untouched. -/
theorem claim_C8_amended_mutation_witness :
    biomechFramesAfter Hand.right framesAllValid 1 3 = framesAllValid ∧
    (biomechFramesAfter Hand.right framesGap 1 3).getD 0 default =
      framesGap.getD 0 default ∧
    (biomechFramesAfter Hand.right framesGap 1 3).getD 1 default =
      framesGap.getD 1 default := by
  refine ⟨(claim_C8_amended_mutation Hand.right framesAllValid 1 3).1 ?_,
    (claim_C8_amended_mutation Hand.right framesGap 1 3).2.1 0 (Or.inl ?_),
    (claim_C8_amended_mutation Hand.right framesGap 1 3).2.2 1 ?_⟩
  · norm_num [missingIdxs, framesAllValid, framePerp, List.replicate, List.range',
      List.getD]
  · norm_num
  · norm_num [framesGap, framePerp, List.getD]

/-! Confidence propagation. -/

theorem frameConf_bounds (frames : List PoseFrame) (i : ℕ) :
    0 ≤ frameConf frames i ∧ frameConf frames i ≤ 100 := by
  unfold frameConf clamp01
  constructor
  · exact mul_nonneg (le_max_left _ _) (by norm_num)
  · have h1 : max 0 (min 1 (frames.getD i default).confidence) ≤ 1 :=
      max_le (by norm_num) (min_le_left _ _)
    calc max 0 (min 1 (frames.getD i default).confidence) * 100 ≤ 1 * 100 :=
          mul_le_mul_of_nonneg_right h1 (by norm_num)
      _ = 100 := by norm_num

theorem detectFfc_some_conf (hand : Hand) (frames : List PoseFrame) (relIdx : ℕ)
    (f : EventFrame) (h : detectFfc hand frames relIdx = some f) :
    f.conf = frameConf frames f.frame := by
  unfold detectFfc at h
  split at h
  · simp at h
  · cases h; rfl

theorem detectBfc_some_conf (hand : Hand) (frames : List PoseFrame) (ffcIdx : ℕ)
    (b : EventFrame) (h : detectBfc hand frames ffcIdx = some b) :
    b.conf = frameConf frames b.frame := by
  unfold detectBfc at h
  split at h
  · simp at h
  · cases h; rfl

theorem detectUah_some_conf (armAng : List Joint → ℚ) (hand : Hand)
    (frames : List PoseFrame) (relIdx : ℕ) (u : EventFrame)
    (h : detectUah armAng hand frames relIdx = some u) :
    u.conf = frameConf frames u.frame := by
  unfold detectUah at h
  split at h
  · simp at h
  · cases h; rfl

theorem uahOf_conf_bounds (armAng : List Joint → ℚ) (hand : Hand) (pf : List PoseFrame) :
    0 ≤ (uahOf armAng hand pf).conf ∧ (uahOf armAng hand pf).conf ≤ 100 := by
  unfold uahOf
  cases hu : detectUah armAng hand (workingFrames hand pf) (relOf armAng hand pf).frame with
  | none =>
    simp only [hu, Option.getD_none]
    split
    · exact ⟨by norm_num, by norm_num⟩
    · exact ⟨by norm_num, by norm_num⟩
  | some u0 =>
    have hc := detectUah_some_conf armAng hand _ _ u0 hu
    have hb := frameConf_bounds (workingFrames hand pf) u0.frame
    simp only [hu, Option.getD_some]
    split
    · show 0 ≤ u0.conf ∧ u0.conf ≤ 100
      rw [hc]
      exact hb
    · show 0 ≤ u0.conf ∧ u0.conf ≤ 100
      rw [hc]
      exact hb

theorem runEvents_conf_bounds (armAng : List Joint → ℚ) (hand : Hand)
    (pf : List PoseFrame) (b f u r : EventFrame)
    (h : runEvents armAng hand pf = .ok b f u r) :
    (0 ≤ b.conf ∧ b.conf ≤ 100) ∧ (0 ≤ f.conf ∧ f.conf ≤ 100) ∧
    (0 ≤ u.conf ∧ u.conf ≤ 100) ∧ (0 ≤ r.conf ∧ r.conf ≤ 100) := by
  unfold runEvents at h
  split at h
  · simp at h
  · cases hffc : detectFfc hand (workingFrames hand pf) (relOf armAng hand pf).frame with
    | none => rw [hffc] at h; simp at h
    | some ffc =>
      rw [hffc] at h
      cases h
      refine ⟨?_, ?_, uahOf_conf_bounds armAng hand pf, frameConf_bounds _ _⟩
      · cases hb : detectBfc hand (workingFrames hand pf) f.frame with
        | none => simp [hb]; norm_num
        | some bb =>
          have hc := detectBfc_some_conf hand _ _ bb hb
          simp only [hb, Option.getD_some]
          rw [hc]
          exact frameConf_bounds _ _
      · rw [detectFfc_some_conf hand _ _ f hffc]
        exact frameConf_bounds _ _

theorem hipAlignment_conf (angle2D : ℚ → ℚ → Option ℚ) (hand : Hand)
    (frames : List PoseFrame) (ffc : EventFrame) (p : ZonePrim)
    (h : hipAlignment angle2D hand frames ffc = some p) :
    p.confidence = round2 ffc.conf := by
  simp only [hipAlignment] at h
  split at h
  · simp at h
  · split at h
    · simp at h
    · split at h
      · simp at h
      · cases h; rfl

theorem shoulderHipSep_conf (angle2D : ℚ → ℚ → Option ℚ) (hand : Hand)
    (frames : List PoseFrame) (ffc : EventFrame) (p : ZonePrim)
    (h : shoulderHipSep angle2D hand frames ffc = some p) :
    p.confidence = round2 ffc.conf := by
  simp only [shoulderHipSep] at h
  split at h
  · simp at h
  · split at h
    · simp at h
    · split at h
      · cases h; rfl
      · simp at h

theorem backfootLanding_conf (angle2D : ℚ → ℚ → Option ℚ) (hand : Hand)
    (frames : List PoseFrame) (ffc : EventFrame) (p : ZonePrim)
    (h : backfootLanding angle2D hand frames ffc = .prim p) :
    p.confidence = round2 ffc.conf := by
  simp only [backfootLanding] at h
  split at h
  · simp at h
  · split at h
    · split at h
      · simp at h
      · simp at h
    · split at h
      · simp at h
      · split at h
        · simp at h
        · split at h
          · simp at h
          · cases h; rfl

theorem round2_bounds (c : ℚ) (h0 : 0 ≤ c) (h1 : c ≤ 100) :
    0 ≤ round2 c ∧ round2 c ≤ 100 := by
  have hle : ((⌊c * 100⌋ : ℚ)) ≤ c * 100 := Int.floor_le _
  have hf0 : (0 : ℤ) ≤ ⌊c * 100⌋ := Int.floor_nonneg.mpr (by positivity)
  have hf1 : (⌊c * 100⌋ : ℤ) ≤ 10000 := by
    have h2 : c * 100 ≤ ((10000 : ℤ) : ℚ) := by push_cast; linarith
    have := Int.floor_le_floor h2
    simpa using this
  have key : (0 : ℤ) ≤ roundHalfEven (c * 100) ∧ roundHalfEven (c * 100) ≤ 10000 := by
    simp only [roundHalfEven]
    split
    · exact ⟨hf0, hf1⟩
    · next hhalf =>
      have hf9 : (⌊c * 100⌋ : ℤ) ≤ 9999 := by
        by_contra hcon
        have hfe : (⌊c * 100⌋ : ℤ) = 10000 := by omega
        push_neg at hhalf
        have hcf : ((⌊c * 100⌋ : ℤ) : ℚ) = 10000 := by rw [hfe]; norm_num
        rw [hcf] at hhalf
        have hle2 : c * 100 ≤ 10000 := by linarith
        linarith
      split
      · omega
      · split
        · exact ⟨hf0, hf1⟩
        · omega
  constructor
  · rw [round2]
    have hn : (0 : ℚ) ≤ (roundHalfEven (c * 100) : ℚ) := by exact_mod_cast key.1
    positivity
  · rw [round2, div_le_iff₀ (by norm_num : (0:ℚ) < 100)]
    calc (roundHalfEven (c * 100) : ℚ) ≤ ((10000 : ℤ) : ℚ) := by exact_mod_cast key.2
      _ = 100 * 100 := by norm_num

theorem roundHalfEven_int (n : ℤ) : roundHalfEven (n : ℚ) = n := by
  simp only [roundHalfEven, Int.floor_intCast]
  rw [if_pos]
  rw [sub_self]
  norm_num

theorem round2_hundred : round2 100 = 100 := by
  have h : ((100 : ℚ) * 100) = ((10000 : ℤ) : ℚ) := by norm_num
  rw [round2, h, roundHalfEven_int]
  norm_num

theorem round2_zero : round2 0 = 0 := by
  have h : ((0 : ℚ) * 100) = ((0 : ℤ) : ℚ) := by norm_num
  rw [round2, h, roundHalfEven_int]
  norm_num

theorem foldAngle_right_zero : foldAngle Hand.right 0 = 0 := by
  simp only [foldAngle]
  rw [if_neg (by decide : ¬(Hand.right = Hand.left))]
  norm_num

/-- Evaluation of `hip_alignment.run` on the five-frame run and the FFC
anchor it produced: a primitive with angle 0, zone SIDE_ON, and confidence
100 — the rounded FFC anchor confidence on the 0-100 scale. -/
theorem hipAlignment_framesAllValid :
    hipAlignment angle2DAxis Hand.right framesAllValid ⟨0, 100⟩ =
      some ⟨0, "SIDE_ON", 100, 0⟩ := by
  have hang : angle2DAxis ((getJ lmPerp 24).x - (getJ lmPerp 23).x)
      ((getJ lmPerp 24).z - (getJ lmPerp 23).z) = some 0 := by
    norm_num [lmPerp, getJ, baseJoint, List.replicate, List.getD, List.set, angle2DAxis]
  rw [hipAlignment]
  rw [if_neg (by norm_num [framesAllValid])]
  simp only [show framesAllValid.getD 0 default = framePerp from rfl]
  simp only [show framePerp.landmarks = some lmPerp from rfl]
  simp only [hang]
  norm_num [foldAngle_right_zero, round2_zero, round2_hundred]

/-- C6 (counterexample): the claim that every ZonePrimitive confidence lies
in `[0, 1]` fails.  The events stage emits FFC at confidence 100 on the
five-frame run, and `hip_alignment.run` then stores a hip primitive whose
confidence is 100, far outside `[0, 1]`. -/
theorem claim_C6_counterexample :
    runEvents armAng90 Hand.right framesAllValid =
      .ok ⟨0, 10⟩ ⟨0, 100⟩ ⟨0, 10⟩ ⟨1, 100⟩ ∧
    hipAlignment angle2DAxis Hand.right framesAllValid ⟨0, 100⟩ =
      some ⟨0, "SIDE_ON", 100, 0⟩ ∧
    ¬ ((100 : ℚ) ≤ 1) :=
  ⟨runEvents_framesAllValid, hipAlignment_framesAllValid, by norm_num⟩

/-- C6 (amended): anchor-event confidences all lie in `[0, 100]`; the hip,
shoulder-hip-separation and back-foot primitives carry
`round(FFC.conf, 2)` — the FFC anchor confidence, hence a value in
`[0, 100]`, not `[0, 1]` — and rounding keeps `[0, 100]`.  (The shoulder
primitive stores no confidence field at all.) -/
theorem claim_C6_amended_confidence :
    (∀ (armAng : List Joint → ℚ) (hand : Hand) (pf : List PoseFrame) (b f u r : EventFrame),
      runEvents armAng hand pf = .ok b f u r →
      (0 ≤ b.conf ∧ b.conf ≤ 100) ∧ (0 ≤ f.conf ∧ f.conf ≤ 100) ∧
      (0 ≤ u.conf ∧ u.conf ≤ 100) ∧ (0 ≤ r.conf ∧ r.conf ≤ 100)) ∧
    (∀ (angle2D : ℚ → ℚ → Option ℚ) (hand : Hand) (frames : List PoseFrame)
      (ffc : EventFrame) (p : ZonePrim),
      hipAlignment angle2D hand frames ffc = some p → p.confidence = round2 ffc.conf) ∧
    (∀ (angle2D : ℚ → ℚ → Option ℚ) (hand : Hand) (frames : List PoseFrame)
      (ffc : EventFrame) (p : ZonePrim),
      shoulderHipSep angle2D hand frames ffc = some p → p.confidence = round2 ffc.conf) ∧
    (∀ (angle2D : ℚ → ℚ → Option ℚ) (hand : Hand) (frames : List PoseFrame)
      (ffc : EventFrame) (p : ZonePrim),
      backfootLanding angle2D hand frames ffc = .prim p → p.confidence = round2 ffc.conf) ∧
    (∀ c : ℚ, 0 ≤ c → c ≤ 100 → 0 ≤ round2 c ∧ round2 c ≤ 100) :=
  ⟨runEvents_conf_bounds, hipAlignment_conf, shoulderHipSep_conf, backfootLanding_conf,
    round2_bounds⟩

/-- C6 (amended, witness): the confidence facts instantiated on the
five-frame run: the four anchor confidences are inside `[0, 100]`, the hip
primitive's stored confidence equals the rounded FFC confidence, and
rounding keeps 100 inside `[0, 100]`. -/
theorem claim_C6_amended_confidence_witness :
    ((0 ≤ EventFrame.conf ⟨0, (10 : ℚ)⟩ ∧ EventFrame.conf ⟨0, (10 : ℚ)⟩ ≤ 100) ∧
      (0 ≤ EventFrame.conf ⟨0, (100 : ℚ)⟩ ∧ EventFrame.conf ⟨0, (100 : ℚ)⟩ ≤ 100) ∧
      (0 ≤ EventFrame.conf ⟨0, (10 : ℚ)⟩ ∧ EventFrame.conf ⟨0, (10 : ℚ)⟩ ≤ 100) ∧
      (0 ≤ EventFrame.conf ⟨1, (100 : ℚ)⟩ ∧ EventFrame.conf ⟨1, (100 : ℚ)⟩ ≤ 100)) ∧
    ZonePrim.confidence ⟨0, "SIDE_ON", 100, 0⟩ =
      round2 (EventFrame.conf ⟨0, (100 : ℚ)⟩) ∧
    (0 ≤ round2 100 ∧ round2 100 ≤ 100) :=
  ⟨claim_C6_amended_confidence.1 armAng90 Hand.right framesAllValid
      ⟨0, 10⟩ ⟨0, 100⟩ ⟨0, 10⟩ ⟨1, 100⟩ runEvents_framesAllValid,
    claim_C6_amended_confidence.2.1 angle2DAxis Hand.right framesAllValid ⟨0, 100⟩
      ⟨0, "SIDE_ON", 100, 0⟩ hipAlignment_framesAllValid,
    claim_C6_amended_confidence.2.2.2.2 100 (by norm_num) (by norm_num)⟩

/-- C9: the pipeline is deterministic — two runs on the same frame
sequence, handedness, fps and bowler type (at the same transcendental
geometry, which is itself a function of the landmark data) produce the
identical complete output: anchor events, elbow profile, release height,
zone primitives, risk summary and action state. -/
theorem claim_C9_determinism (armAng kneeAng trunkTheta : List Joint → ℚ)
    (gsmoothUnwrap : List ℚ → List ℚ) (pairAngle : ℚ → ℚ → ℚ)
    (angle2D : ℚ → ℚ → Option ℚ) (shoulderAng : ℚ → ℚ → ℚ) (hand₁ hand₂ : Hand)
    (frames₁ frames₂ : List PoseFrame) (fps₁ fps₂ : ℚ) (bt₁ bt₂ : String)
    (hf : frames₁ = frames₂) (hh : hand₁ = hand₂) (hp : fps₁ = fps₂)
    (hb : bt₁ = bt₂) :
    analyze armAng kneeAng trunkTheta gsmoothUnwrap pairAngle angle2D shoulderAng
      hand₁ frames₁ fps₁ bt₁ =
    analyze armAng kneeAng trunkTheta gsmoothUnwrap pairAngle angle2D shoulderAng
      hand₂ frames₂ fps₂ bt₂ := by
  subst hf hh hp hb
  rfl

/-- C9 (witness): determinism instantiated on the five-frame run with the
concrete oracle functions. -/
theorem claim_C9_determinism_witness :
    analyze armAng90 kneeAng0 trunkTheta0 gsmooth0 pairAngle0 angle2DAxis pairAngle0
      Hand.right framesAllValid 30 "pace" =
    analyze armAng90 kneeAng0 trunkTheta0 gsmooth0 pairAngle0 angle2DAxis pairAngle0
      Hand.right framesAllValid 30 "pace" :=
  claim_C9_determinism armAng90 kneeAng0 trunkTheta0 gsmooth0 pairAngle0 angle2DAxis
    pairAngle0 Hand.right Hand.right framesAllValid framesAllValid 30 30 "pace" "pace"
    rfl rfl rfl rfl

/-! Generic list lemmas. -/

theorem filterMap_eq_map_of {α β : Type} (f : α → Option β) (g : α → β) :
    ∀ (l : List α), (∀ a ∈ l, f a = some (g a)) → l.filterMap f = l.map g
  | [], _ => rfl
  | a :: as, h => by
    rw [List.filterMap_cons_some (h a (List.mem_cons_self a as)), List.map_cons,
      filterMap_eq_map_of f g as fun x hx => h x (List.mem_cons_of_mem a hx)]

theorem getD_map_range {β : Type} (g : ℕ → β) (d : β) (n i : ℕ) (h : i < n) :
    ((List.range n).map g).getD i d = g i := by
  rw [List.getD_eq_getElem?_getD, List.getElem?_map, List.getElem?_range h]
  rfl

theorem pyIndexOf_spec (x : ℚ) :
    ∀ (l : List ℚ), x ∈ l →
      pyIndexOf l x < l.length ∧ l.getD (pyIndexOf l x) 0 = x := by
  intro l
  induction l with
  | nil => intro h; exact absurd h (List.not_mem_nil x)
  | cons a as ih =>
    intro h
    unfold pyIndexOf
    rw [List.findIdx_cons]
    by_cases ha : a = x
    · rw [decide_eq_true ha]
      exact ⟨by simp, ha⟩
    · have hx : x ∈ as := by
        cases List.mem_cons.mp h with
        | inl h0 => exact absurd h0.symm ha
        | inr h0 => exact h0
      have ih2 := ih hx
      unfold pyIndexOf at ih2
      rw [decide_eq_false ha]
      constructor
      · simp only [cond_false, List.length_cons]
        omega
      · simp only [cond_false, List.getD_cons_succ]
        exact ih2.2

theorem pyIndexOf_eq (x : ℚ) :
    ∀ (l : List ℚ) (j : ℕ), j < l.length → l.getD j 0 = x →
      (∀ i, i < j → l.getD i 0 ≠ x) → pyIndexOf l x = j := by
  intro l
  induction l with
  | nil => intro j hj _ _; simp at hj
  | cons a as ih =>
    intro j hj hx hne
    unfold pyIndexOf
    rw [List.findIdx_cons]
    cases j with
    | zero =>
      rw [List.getD_cons_zero] at hx
      rw [decide_eq_true hx]
      rfl
    | succ j =>
      have ha : a ≠ x := by
        have h0 := hne 0 (Nat.succ_pos j)
        rwa [List.getD_cons_zero] at h0
      rw [decide_eq_false ha]
      have ihj := ih j (by simp only [List.length_cons] at hj; omega)
        (by rwa [List.getD_cons_succ] at hx)
        (fun i hi => by
          have h1 := hne (i + 1) (Nat.succ_lt_succ hi)
          rwa [List.getD_cons_succ] at h1)
      unfold pyIndexOf at ihj
      simp only [cond_false]
      omega

theorem pyMinByKeyAux_eq (key : ℚ → ℤ) (b : ℚ) :
    ∀ (l : List ℚ) (best : ℚ),
      (best = b ∨ (b ∈ l ∧ key b < key best)) →
      (∀ x ∈ l, x ≠ b → key b < key x) →
      pyMinByKeyAux key l best (key best) = b := by
  intro l
  induction l with
  | nil =>
    intro best hbest _
    cases hbest with
    | inl h => exact h
    | inr h => exact absurd h.1 (List.not_mem_nil b)
  | cons y ys ih =>
    intro best hbest hlt
    unfold pyMinByKeyAux
    by_cases hy : key y < key best
    · rw [if_pos hy]
      by_cases hyb : y = b
      · subst hyb
        exact ih y (Or.inl rfl) fun x hx hxb => hlt x (List.mem_cons_of_mem y hx) hxb
      · cases hbest with
        | inl h =>
          subst h
          exact absurd hy (not_lt.mpr (le_of_lt (hlt y (List.mem_cons_self y ys) hyb)))
        | inr h =>
          have hbys : b ∈ ys := by
            cases List.mem_cons.mp h.1 with
            | inl h0 => exact absurd h0.symm hyb
            | inr h0 => exact h0
          exact ih y (Or.inr ⟨hbys, hlt y (List.mem_cons_self y ys) hyb⟩)
            fun x hx hxb => hlt x (List.mem_cons_of_mem y hx) hxb
    · rw [if_neg hy]
      cases hbest with
      | inl h =>
        exact ih best (Or.inl h) fun x hx hxb => hlt x (List.mem_cons_of_mem y hx) hxb
      | inr h =>
        have hyb : y ≠ b := by
          intro he
          exact hy (he ▸ h.2)
        have hbys : b ∈ ys := by
          cases List.mem_cons.mp h.1 with
          | inl h0 => exact absurd h0.symm hyb
          | inr h0 => exact h0
        exact ih best (Or.inr ⟨hbys, h.2⟩)
          fun x hx hxb => hlt x (List.mem_cons_of_mem y hx) hxb

theorem pyMinByKey_eq_of (key : ℚ → ℤ) (l : List ℚ) (b : ℚ) (hb : b ∈ l)
    (hlt : ∀ x ∈ l, x ≠ b → key b < key x) : pyMinByKey key l = b := by
  cases l with
  | nil => exact absurd hb (List.not_mem_nil b)
  | cons x xs =>
    unfold pyMinByKey
    by_cases hxb : x = b
    · exact pyMinByKeyAux_eq key b xs x (Or.inl hxb)
        fun z hz hzb => hlt z (List.mem_cons_of_mem x hz) hzb
    · have hbxs : b ∈ xs := by
        cases List.mem_cons.mp hb with
        | inl h0 => exact absurd h0.symm hxb
        | inr h0 => exact h0
      exact pyMinByKeyAux_eq key b xs x
        (Or.inr ⟨hbxs, hlt x (List.mem_cons_self x xs) hxb⟩)
        fun z hz hzb => hlt z (List.mem_cons_of_mem x hz) hzb

theorem foldl_min_le_init (b : ℚ) : ∀ (l : List ℚ), l.foldl min b ≤ b
  | [] => le_refl b
  | y :: ys => by
    rw [List.foldl_cons]
    exact le_trans (foldl_min_le_init (min b y) ys) (min_le_left b y)

theorem foldl_min_le_mem (b : ℚ) :
    ∀ (l : List ℚ), ∀ x ∈ l, l.foldl min b ≤ x
  | y :: ys, x, hx => by
    rw [List.foldl_cons]
    cases List.mem_cons.mp hx with
    | inl h0 =>
      subst h0
      exact le_trans (foldl_min_le_init (min b x) ys) (min_le_right b x)
    | inr h0 => exact foldl_min_le_mem (min b y) ys x h0

theorem foldl_min_mem (b : ℚ) :
    ∀ (l : List ℚ), l.foldl min b = b ∨ l.foldl min b ∈ l := by
  intro l
  induction l generalizing b with
  | nil => exact Or.inl rfl
  | cons y ys ih =>
    rw [List.foldl_cons]
    rcases ih (min b y) with h | h
    · rw [h]
      rcases min_cases b y with ⟨he, _⟩ | ⟨he, _⟩
      · exact Or.inl he
      · exact Or.inr (by rw [he]; exact List.mem_cons_self y ys)
    · exact Or.inr (List.mem_cons_of_mem y h)

theorem minList_eq_of (l : List ℚ) (a : ℚ) (ha : a ∈ l) (hle : ∀ x ∈ l, a ≤ x) :
    minList l = a := by
  cases l with
  | nil => exact absurd ha (List.not_mem_nil a)
  | cons x xs =>
    show xs.foldl min x = a
    refine le_antisymm ?_ ?_
    · cases List.mem_cons.mp ha with
      | inl h0 => exact h0 ▸ foldl_min_le_init x xs
      | inr h0 => exact foldl_min_le_mem x xs a h0
    · rcases foldl_min_mem x xs with h | h
      · rw [h]
        exact hle x (List.mem_cons_self x xs)
      · exact hle _ (List.mem_cons_of_mem x h)

theorem drop_map_range {β : Type} (g : ℕ → β) (n m : ℕ) :
    ((List.range n).map g).drop m = (List.range' m (n - m)).map g := by
  apply List.ext_getElem?
  intro i
  rw [List.getElem?_drop]
  by_cases h : m + i < n
  · rw [List.getElem?_map, List.getElem?_map, List.getElem?_range h,
      List.getElem?_range' _ _ (by omega : i < n - m)]
    simp
  · have h1 : ((List.range n).map g).length ≤ m + i := by
      rw [List.length_map, List.length_range]
      omega
    have h2 : ((List.range' m (n - m)).map g).length ≤ i := by
      rw [List.length_map, List.length_range']
      omega
    rw [List.getElem?_eq_none h1, List.getElem?_eq_none h2]

/-! vRamp facts. -/

theorem vRamp_of_le (x : ℚ) (h : x ≤ 167) : vRamp x = 120 - 3 / 20 * x := by
  rw [vRamp, abs_of_nonpos (by linarith)]
  ring

theorem vRamp_of_ge (x : ℚ) (h : 167 ≤ x) : vRamp x = 1398 / 20 + 3 / 20 * x := by
  rw [vRamp, abs_of_nonneg (by linarith)]
  ring

theorem vRamp_lower (x : ℚ) : 1899 / 20 ≤ vRamp x := by
  have h := abs_nonneg (3 / 20 * x - 501 / 20)
  rw [vRamp]
  linarith

theorem vRamp_167 : vRamp 167 = 1899 / 20 := by
  rw [vRamp_of_ge 167 (le_refl _)]
  norm_num

theorem vRamp_ne_of_lt (i : ℕ) (h : i < 167) : vRamp (i : ℚ) ≠ 1899 / 20 := by
  rw [vRamp_of_le (i : ℚ) (by exact_mod_cast le_of_lt h)]
  have : (i : ℚ) ≤ 166 := by exact_mod_cast Nat.le_of_lt_succ h
  intro he
  have : (120 : ℚ) - 3 / 20 * 166 ≤ 120 - 3 / 20 * (i : ℚ) := by linarith
  rw [he] at this
  norm_num at this


/-! The sample list on the ramp input. -/

theorem vRampN_167 : vRampN 167 = 1899 / 20 := by
  norm_num [vRampN, vRamp]

theorem vRampN_168 : vRampN 168 = 951 / 10 := by
  rw [vRampN, show ((168 : ℕ) : ℚ) = 168 from by norm_num, vRamp_of_ge 168 (by norm_num)]
  norm_num

theorem vRampN_0 : vRampN 0 = 120 := by
  rw [vRampN, show ((0 : ℕ) : ℚ) = 0 from by norm_num, vRamp_of_le 0 (by norm_num)]
  norm_num

theorem framesRamp_getD (f : ℕ) (hf : f < 187) :
    framesRamp.getD f default = ⟨some [⟨(f : ℚ), 0, 0, 1⟩], 1⟩ := by
  rw [framesRamp]
  exact getD_map_range _ _ 187 f hf

theorem fncSamples_ramp :
    fncSamples kneeAngRamp framesRamp 0 167 =
      List.map rampSample (List.range 187) := by
  have hlen : framesRamp.length = 187 := by
    rw [framesRamp, List.length_map, List.length_range]
  rw [fncSamples, hlen]
  have h187 : min 187 (167 + 20) - 0 = 187 := by norm_num
  rw [h187, show List.range' 0 187 = List.range 187 from (List.range_eq_range' 187).symm]
  refine filterMap_eq_map_of _ _ _ fun f hf => ?_
  have hf187 : f < 187 := List.mem_range.mp hf
  rw [framesRamp_getD f hf187]
  rfl

theorem rampValues_eq :
    (List.map rampSample (List.range 187)).map Prod.snd = rampValues := by
  rw [List.map_map, rampValues]
  rfl

theorem rampIdxs_eq :
    (List.map rampSample (List.range 187)).map Prod.fst = List.range 187 := by
  rw [List.map_map]
  exact List.map_id _

theorem rampValues_getD (i : ℕ) (h : i < 187) : rampValues.getD i 0 = vRampN i := by
  rw [rampValues]
  exact getD_map_range _ _ 187 i h

theorem rampValues_length : rampValues.length = 187 := by
  rw [rampValues, List.length_map, List.length_range]

theorem pyIndexOf_ramp : pyIndexOf rampValues (1899 / 20) = 167 := by
  refine pyIndexOf_eq _ rampValues 167 (by rw [rampValues_length]; norm_num) ?_ ?_
  · rw [rampValues_getD 167 (by norm_num)]
    exact vRampN_167
  · intro i hi
    rw [rampValues_getD i (by omega)]
    exact vRamp_ne_of_lt i hi

theorem signalQuality_ramp : signalQuality rampValues = 1 := by
  rw [signalQuality, rampValues_length]
  rw [if_neg (by norm_num)]
  have h186 : 187 - 1 = 186 := by norm_num
  rw [h186]
  have hdiffs : (List.range 186).map
      (fun i => |rampValues.getD (i + 1) 0 - rampValues.getD i 0|) =
      List.replicate 186 (3 / 20) := by
    rw [show List.replicate 186 ((3 : ℚ) / 20) =
        (List.range 186).map (fun _ => (3 : ℚ) / 20) by
      rw [List.map_const', List.length_range]]
    refine List.map_congr_left fun i hi => ?_
    have hi186 : i < 186 := List.mem_range.mp hi
    rw [rampValues_getD (i + 1) (by omega), rampValues_getD i (by omega)]
    show |vRamp ((i + 1 : ℕ) : ℚ) - vRamp (i : ℚ)| = 3 / 20
    push_cast
    by_cases hc : i + 1 ≤ 167
    · have hcq : (i : ℚ) + 1 ≤ 167 := by exact_mod_cast hc
      rw [vRamp_of_le ((i : ℚ) + 1) hcq, vRamp_of_le (i : ℚ) (by linarith)]
      have he : (120 - 3 / 20 * ((i : ℚ) + 1)) - (120 - 3 / 20 * (i : ℚ)) = -(3 / 20) := by
        ring
      rw [he, abs_neg, abs_of_nonneg (by norm_num)]
    · have hge : 167 ≤ i := by omega
      have hgq : (167 : ℚ) ≤ (i : ℚ) := by exact_mod_cast hge
      rw [vRamp_of_ge ((i : ℚ) + 1) (by linarith), vRamp_of_ge (i : ℚ) hgq]
      have he : (1398 / 20 + 3 / 20 * ((i : ℚ) + 1)) - (1398 / 20 + 3 / 20 * (i : ℚ)) =
          3 / 20 := by ring
      rw [he, abs_of_nonneg (by norm_num)]
  rw [hdiffs]
  simp only [List.sum_replicate, List.length_replicate, nsmul_eq_mul]
  rw [if_neg (by norm_num)]

theorem range_getD (n i : ℕ) (h : i < n) : (List.range n).getD i 0 = i := by
  rw [List.getD_eq_getElem?_getD, List.getElem?_range h]
  rfl

theorem fncAngleRel_ramp :
    fncAngleRel rampValues (List.range 187) 167 = 1899 / 20 := by
  rw [fncAngleRel]
  refine pyMinByKey_eq_of _ _ _ ?_ ?_
  · rw [show (1899 : ℚ) / 20 = vRampN 167 from vRampN_167.symm]
    show vRampN 167 ∈ List.map vRampN (List.range 187)
    exact List.mem_map_of_mem _ (List.mem_range.mpr (by norm_num))
  · intro x hx hxne
    have hspec := pyIndexOf_spec x rampValues hx
    have hjlen : pyIndexOf rampValues x < 187 := by
      rw [rampValues_length] at hspec
      exact hspec.1
    have hjx : vRampN (pyIndexOf rampValues x) = x := by
      have h2 := hspec.2
      rwa [rampValues_getD _ hjlen] at h2
    have hjne : pyIndexOf rampValues x ≠ 167 := by
      intro he
      rw [he, vRampN_167] at hjx
      exact hxne hjx.symm
    show |((List.range 187).getD (pyIndexOf rampValues (1899 / 20)) 0 : ℤ) - 167| <
      |((List.range 187).getD (pyIndexOf rampValues x) 0 : ℤ) - 167|
    rw [pyIndexOf_ramp, range_getD 187 167 (by norm_num), range_getD 187 _ hjlen]
    have h167 : ((167 : ℕ) : ℤ) - 167 = 0 := by norm_num
    rw [h167, abs_zero]
    refine abs_pos.mpr ?_
    omega

theorem rampValues_drop :
    rampValues.drop 167 = List.map vRampN (List.range' 167 20) := by
  rw [rampValues, drop_map_range]

theorem minPost_ramp : minList (rampValues.drop 167) = 1899 / 20 := by
  rw [rampValues_drop]
  refine minList_eq_of _ _ ?_ ?_
  · rw [show (1899 : ℚ) / 20 = vRampN 167 from vRampN_167.symm]
    exact List.mem_map_of_mem _ (List.mem_range'_1.mpr ⟨le_refl _, by norm_num⟩)
  · intro x hx
    obtain ⟨f, _, hfx⟩ := List.mem_map.mp hx
    rw [← hfx]
    exact vRamp_lower _

theorem rampValues_head : rampValues.getD 0 0 = 120 := by
  rw [rampValues_getD 0 (by norm_num)]
  exact vRampN_0

theorem fncCompute_ramp :
    fncCompute kneeAngRamp framesRamp 0 167 =
      some ⟨.FRONT_KNEE_COLLAPSE, .medium,
        ["release_anchored", "brace_checked_by_release", "follow_through_allowed"]⟩ := by
  rw [fncCompute]
  rw [if_neg (by norm_num)]
  simp only [fncSamples_ramp, rampValues_eq, rampIdxs_eq]
  rw [if_neg (by rw [List.length_map, List.length_range]; norm_num)]
  rw [if_neg (by rw [signalQuality_ramp]; norm_num)]
  rw [fncAngleRel_ramp, pyIndexOf_ramp, minPost_ramp, rampValues_head]
  rw [show fncGrade (1899 / 20) (120 - 1899 / 20) = .medium by
    rw [fncGrade, if_neg (by norm_num), if_neg (by norm_num), if_pos (by norm_num)]]

theorem fncSpecLevel_ramp :
    fncSpecLevel kneeAngRamp framesRamp 0 167 = .low := by
  rw [fncSpecLevel]
  simp only [fncSamples_ramp]
  rw [List.filter_map, List.filter_map]
  rw [show ((List.range 187).filter
      ((fun s : ℕ × ℚ => decide (s.1 = 167)) ∘ rampSample)) = [167] from by decide]
  rw [show ((List.range 187).filter
      ((fun s : ℕ × ℚ => decide (167 < s.1)) ∘ rampSample)) =
      List.range' 168 19 from by decide]
  rw [rampValues_eq, rampValues_head]
  have hrel : (([(167 : ℕ)].map rampSample).map Prod.snd).getD 0 0 = 1899 / 20 := by
    simp only [List.map_cons, List.map_nil, List.getD_cons_zero]
    exact vRampN_167
  have hmin : minList (((List.range' 168 19).map rampSample).map Prod.snd) = 951 / 10 := by
    rw [List.map_map]
    refine minList_eq_of _ _ ?_ ?_
    · rw [show (951 : ℚ) / 10 = (Prod.snd ∘ rampSample) 168 from vRampN_168.symm]
      exact List.mem_map_of_mem _ (List.mem_range'_1.mpr ⟨by norm_num, by norm_num⟩)
    · intro x hx
      obtain ⟨f, hf, hfx⟩ := List.mem_map.mp hx
      have hf168 : 168 ≤ f := (List.mem_range'_1.mp hf).1
      rw [← hfx]
      show (951 : ℚ) / 10 ≤ vRampN f
      rw [vRampN, vRamp_of_ge (f : ℚ) (by
        have : (168 : ℚ) ≤ (f : ℚ) := by exact_mod_cast hf168
        linarith)]
      have : (168 : ℚ) ≤ (f : ℚ) := by exact_mod_cast hf168
      linarith
  rw [hrel, hmin]
  rw [show fncGrade (1899 / 20) (120 - 951 / 10) = .low by
    rw [fncGrade, if_neg (by norm_num), if_neg (by norm_num), if_neg (by norm_num)]]

/-- C4 (counterexample): on a 187-frame near-flat V-shaped knee curve
(FFC at frame 0 at 120°, minimum 94.95° at the Release frame 167, rising
after), the calculator produces a graded MEDIUM finding: its delta is
`120 - 94.95 = 25.05 ≥ 25`, because `min_post` includes the Release sample
itself.  The spec's grading — delta against the minimum strictly after
Release, `120 - 95.1 = 24.9 < 25` — yields LOW. -/
theorem claim_C4_counterexample :
    fncCompute kneeAngRamp framesRamp 0 167 =
      some ⟨.FRONT_KNEE_COLLAPSE, .medium,
        ["release_anchored", "brace_checked_by_release", "follow_through_allowed"]⟩ ∧
    fncSpecLevel kneeAngRamp framesRamp 0 167 = .low ∧
    RiskLevel.medium ≠ RiskLevel.low :=
  ⟨fncCompute_ramp, fncSpecLevel_ramp, by decide⟩

/-- C4 (amended): every graded (non-skipped) front-knee-collapse finding
carries exactly the level `fncGrade angle_rel delta` — LOW when the angle
at the sample nearest to Release (located by first-occurrence value
lookup) is at least the 100° brace threshold, and otherwise graded at
25/45 by `delta = angle_ffc - min_post`, where `min_post` is the minimum
of the values from that first occurrence onward, inclusive of the Release
sample. -/
theorem claim_C4_amended_grading (kneeAng : List Joint → ℚ) (frames : List PoseFrame)
    (ffc release : ℕ) (r : RawRisk) (h : fncCompute kneeAng frames ffc release = some r)
    (hg : r.level ≠ .skipped) :
    r.level =
      fncGrade
        (fncAngleRel ((fncSamples kneeAng frames ffc release).map Prod.snd)
          ((fncSamples kneeAng frames ffc release).map Prod.fst) release)
        (((fncSamples kneeAng frames ffc release).map Prod.snd).getD 0 0 -
          minList (((fncSamples kneeAng frames ffc release).map Prod.snd).drop
            (pyIndexOf ((fncSamples kneeAng frames ffc release).map Prod.snd)
              (fncAngleRel ((fncSamples kneeAng frames ffc release).map Prod.snd)
                ((fncSamples kneeAng frames ffc release).map Prod.fst) release)))) := by
  simp only [fncCompute] at h
  split at h
  · cases h
    exact absurd rfl hg
  · split at h
    · cases h
      exact absurd rfl hg
    · split at h
      · cases h
        exact absurd rfl hg
      · cases h
        rfl

theorem fncCompute_flat :
    fncCompute kneeAngFlat framesFlat 0 3 =
      some ⟨.FRONT_KNEE_COLLAPSE, .low,
        ["release_anchored", "brace_checked_by_release", "follow_through_allowed"]⟩ := by
  norm_num [fncCompute, fncSamples, framesFlat, kneeAngFlat, getJ, signalQuality,
    fncAngleRel, pyMinByKey, pyMinByKeyAux, pyIndexOf, minList, fncGrade,
    List.range', List.getD, List.findIdx, List.findIdx.go, List.filterMap_cons,
    List.filterMap_nil, List.range_succ, List.range_zero, List.map_cons, List.map_nil,
    List.map_append, List.sum_append, List.sum_cons, List.sum_nil, abs_of_nonneg]

/-- C4 (amended, witness): on a six-frame rising curve braced at Release
the calculator grades LOW, matching the amended grading formula. -/
theorem claim_C4_amended_grading_witness :
    fncCompute kneeAngFlat framesFlat 0 3 =
      some ⟨.FRONT_KNEE_COLLAPSE, .low,
        ["release_anchored", "brace_checked_by_release", "follow_through_allowed"]⟩ ∧
    RiskLevel.low ≠ RiskLevel.skipped ∧
    RiskLevel.low =
      fncGrade
        (fncAngleRel ((fncSamples kneeAngFlat framesFlat 0 3).map Prod.snd)
          ((fncSamples kneeAngFlat framesFlat 0 3).map Prod.fst) 3)
        (((fncSamples kneeAngFlat framesFlat 0 3).map Prod.snd).getD 0 0 -
          minList (((fncSamples kneeAngFlat framesFlat 0 3).map Prod.snd).drop
            (pyIndexOf ((fncSamples kneeAngFlat framesFlat 0 3).map Prod.snd)
              (fncAngleRel ((fncSamples kneeAngFlat framesFlat 0 3).map Prod.snd)
                ((fncSamples kneeAngFlat framesFlat 0 3).map Prod.fst) 3)))) :=
  ⟨fncCompute_flat, by decide,
    claim_C4_amended_grading kneeAngFlat framesFlat 0 3 _ fncCompute_flat (by decide)⟩

end Bowliverse
